import Mathlib

/-!
Shallow embedding of the core simulation layer of the `fubis` endless runner:
the fixed-timestep loop, the MENU/PLAYING/GAME_OVER state machine, pooled
entities (obstacles, power-ups, particles), axis-aligned collision detection,
the spawn/difficulty scheduler, the power-up effect model and scoring.

Conventions of the embedding:
* machine floats are embedded as exact rationals;
* the injected randomness source (`Math.random()` draws) is threaded as
  explicit oracle values carried by an `Env` record;
* renderer/audio/DOM collaborators are excluded collaborators: meshes are
  represented only by the axis-aligned bounding volumes the core reads
  (their extents are data supplied by the mesh layer), audio calls are
  recorded as an emitted-event trace, DOM writes are dropped.
-/

namespace Fubis

/-- three.js `Vector3`, restricted to the components the core logic reads. -/
structure V3 where
  x : ℚ
  y : ℚ
  z : ℚ
deriving DecidableEq, Repr, Inhabited

/-- three.js `Vector3.addScalar`. -/
def V3.addScalar (v : V3) (s : ℚ) : V3 := ⟨v.x + s, v.y + s, v.z + s⟩

/-- three.js `Box3`: an axis-aligned box given by componentwise min/max corners. -/
structure Box3 where
  min : V3
  max : V3
deriving DecidableEq, Repr, Inhabited

/-- three.js `Box3.intersectsBox`: the miss test uses strict `<` / `>` on each
axis, so touching faces count as intersecting (closed-interval overlap). -/
def Box3.intersectsBox (self box : Box3) : Bool :=
  !(decide (box.max.x < self.min.x) || decide (box.min.x > self.max.x) ||
    decide (box.max.y < self.min.y) || decide (box.min.y > self.max.y) ||
    decide (box.max.z < self.min.z) || decide (box.min.z > self.max.z))

/-- three.js `Box3.expandByScalar`: grows (or, for negative `s`, shrinks) the
box by `s` on every side. -/
def Box3.expandByScalar (b : Box3) (s : ℚ) : Box3 :=
  ⟨b.min.addScalar (-s), b.max.addScalar s⟩

/-- Axis-aligned box centered at `c` with half-extents `h` — how the mesh
layer's `Box3.setFromObject` result is represented in the embedding. -/
def boxAt (c h : V3) : Box3 :=
  ⟨⟨c.x - h.x, c.y - h.y, c.z - h.z⟩, ⟨c.x + h.x, c.y + h.y, c.z + h.z⟩⟩

/-- `THREE.MathUtils.clamp(value, lo, hi) = Math.max(lo, Math.min(hi, value))`. -/
def clampQ (value lo hi : ℚ) : ℚ := max lo (min hi value)

/-- `Math.min(score / 50, 3)` — the difficulty scalar computed in
`Game._update`, `ObstacleManager.update` and `PowerUpManager.update`. -/
def difficulty (score : ℚ) : ℚ := min (score / 50) 3

/-- The spec's wording of the same contract, `clamp(score / 50, 0, 3)`,
kept separate for the refinement comparison in claim C9. -/
def difficultySpec (score : ℚ) : ℚ := clampQ (score / 50) 0 3

/-- Per-tick input snapshot consumed by `Player.update` (`input.actions`). -/
structure InputActions where
  moveLeft : Bool
  moveRight : Bool
deriving DecidableEq, Repr, Inhabited

/-- Player entity: lateral/vertical position, jump physics state and the
collision bounding box recomputed by `Player.update`. -/
structure Player where
  posX : ℚ
  posY : ℚ
  velocityY : ℚ
  isGrounded : Bool
  boundingBox : Box3
deriving DecidableEq, Repr, Inhabited

/-- `this.trackWidth = 10` in `Player`. -/
def Player.trackWidth : ℚ := 10

/-- `this.moveSpeed = 12`. -/
def Player.moveSpeed : ℚ := 12

/-- `this.jumpForce = 12`. -/
def Player.jumpForce : ℚ := 12

/-- `this.gravity = 30`. -/
def Player.gravity : ℚ := 30

/-- `this.groundY = 0.6`. -/
def Player.groundY : ℚ := 3/5

/-- The player's mesh-derived AABB before the core's inset.  The mesh
hierarchy (unit cube plus 1.3-unit glow child) belongs to the excluded
renderer; the embedding represents it as the cube of half-extent 0.65
around the mesh position, which is all the collision logic reads. -/
def playerMeshBox (x y : ℚ) : Box3 :=
  boxAt ⟨x, y, 0⟩ ⟨13/20, 13/20, 13/20⟩

/-- `Player.update`: lateral movement, clamping to the track, jump physics,
and recomputation of the bounding box inset by 0.1 on every side
(`this.boundingBox.setFromObject(this.mesh); this.boundingBox.expandByScalar(-0.1)`). -/
def Player.update (p : Player) (dt : ℚ) (inp : InputActions) : Player :=
  let x1 := if inp.moveLeft then p.posX - Player.moveSpeed * dt else p.posX
  let x2 := if inp.moveRight then x1 + Player.moveSpeed * dt else x1
  let halfTrack := Player.trackWidth / 2 - 1/2
  let x3 := clampQ x2 (-halfTrack) halfTrack
  let yState :=
    if !p.isGrounded then
      let vy := p.velocityY - Player.gravity * dt
      let y := p.posY + vy * dt
      if y ≤ Player.groundY then (Player.groundY, (0 : ℚ), true) else (y, vy, false)
    else (p.posY, p.velocityY, p.isGrounded)
  { posX := x3
    posY := yState.1
    velocityY := yState.2.1
    isGrounded := yState.2.2
    boundingBox := (playerMeshBox x3 yState.1).expandByScalar (-(1/10)) }

/-- `Player.jump`: returns the updated player and whether the jump fired. -/
def Player.jump (p : Player) : Player × Bool :=
  if p.isGrounded then
    ({ p with velocityY := Player.jumpForce, isGrounded := false }, true)
  else (p, false)

/-- `Player.reset`: back to the ground-level start position.  The bounding
box is not recomputed here (the source's `reset` leaves it stale until the
next `update`). -/
def Player.reset (p : Player) : Player :=
  { p with posX := 0, posY := Player.groundY, velocityY := 0, isGrounded := true }

/-- Power-up kinds (`POWERUP_TYPES`). -/
inductive PUType
  | SHIELD
  | DOUBLE
  | SHATTER
deriving DecidableEq, Repr, Inhabited

/-- `POWERUP_CONFIG[type].duration`: SHIELD 5 s, DOUBLE 8 s, SHATTER 6 s. -/
def PUType.duration : PUType → ℚ
  | .SHIELD => 5
  | .DOUBLE => 8
  | .SHATTER => 6

/-- `POWERUP_CONFIG[type].color`. -/
def PUType.color : PUType → ℕ
  | .SHIELD => 0x00ffff
  | .DOUBLE => 0xffcc00
  | .SHATTER => 0xff3300

/-- `POWERUP_CONFIG[type].label`. -/
def PUType.label : PUType → String
  | .SHIELD => "🛡️ SHIELD"
  | .DOUBLE => "⚡ 2X SCORE"
  | .SHATTER => "💥 SHATTER"

/-- The `Math.random()` draws consumed by one `_spawnObstacle` call: the
lateral roll, the explosive roll, the height roll, the palette index, and
the mesh-derived AABB half-extents (random scale and spin belong to the
excluded mesh layer; the collision logic only reads the resulting extents). -/
structure ObSpawnDraw where
  xRoll : ℚ
  explosiveRoll : ℚ
  yRoll : ℚ
  colorIdx : Fin 6
  half : V3
deriving DecidableEq, Repr, Inhabited

/-- Draws for one shatter-burst particle: three raw velocity rolls plus the
lifetime and size rolls. -/
structure ShatterDraw where
  v1 : ℚ
  v2 : ℚ
  v3 : ℚ
  lifeRoll : ℚ
  sizeRoll : ℚ
deriving DecidableEq, Repr, Inhabited

/-- Draws for one explosion particle.  `dir` abstracts the spherical-sector
direction `(cos α · sin β, cos β, sin α · sin β)` (ℚ has no trigonometry;
randomness is an injected source). -/
structure ExplosionDraw where
  dir : V3
  forceRoll : ℚ
  colorIdx : Fin 4
  lifeRoll : ℚ
  sizeRoll : ℚ
deriving DecidableEq, Repr, Inhabited

/-- Draws for one pickup-sparkle particle. -/
structure PickupDraw where
  v1 : ℚ
  v2 : ℚ
  v3 : ℚ
  lifeRoll : ℚ
deriving DecidableEq, Repr, Inhabited

/-- The injected randomness source for one fixed step: every `Math.random()`
outcome the tick can consume, as oracle values.  `puType` abstracts
`_randomType`'s uniform choice; `puFloat` abstracts the wall-clock float
animation offset of power-up entities. -/
structure Env where
  obDraw : ℕ → ObSpawnDraw
  obExtraRoll1 : ℚ
  obExtraRoll2 : ℚ
  puSpawnRoll : ℚ
  puXRoll : ℚ
  puType : PUType
  puFloat : ℚ
  shatterDraw : ℕ → ShatterDraw
  explosionDraw : ℕ → ExplosionDraw
  pickupDraw : ℕ → PickupDraw
deriving Inhabited

/-- `OBSTACLE_COLORS`. -/
def OBSTACLE_COLORS : List ℕ :=
  [0xff0055, 0xff6600, 0xffcc00, 0x00ff88, 0x0088ff, 0xff3366]

/-- `EXPLOSIVE_COLOR`. -/
def EXPLOSIVE_COLOR : ℕ := 0xff0000

/-- Obstacle entity.  `half` holds the mesh-derived AABB half-extents set at
activation (mesh scale/spin belong to the excluded renderer); `colorTag` is
the material color echoed back on collision events. -/
structure Obstacle where
  active : Bool
  pos : V3
  speed : ℚ
  isExplosive : Bool
  half : V3
  colorTag : ℕ
  boundingBox : Box3
deriving DecidableEq, Repr, Inhabited

/-- `Obstacle.activate(x, z, speed, explosive)`: position
`(x, 0.6 + rand·1.5, z)`, color red for explosive else a palette pick.  The
bounding box is left stale; the same tick's update pass recomputes it. -/
def Obstacle.activate (o : Obstacle) (x z speed : ℚ) (explosive : Bool)
    (d : ObSpawnDraw) : Obstacle :=
  { o with
    active := true
    pos := ⟨x, 3/5 + d.yRoll * (3/2), z⟩
    speed := speed
    isExplosive := explosive
    colorTag := if explosive then EXPLOSIVE_COLOR else OBSTACLE_COLORS.getD d.colorIdx.val 0
    half := d.half }

/-- `Obstacle.deactivate`. -/
def Obstacle.deactivate (o : Obstacle) : Obstacle :=
  { o with active := false, isExplosive := false }

/-- `Obstacle.update(dt)`: advance along +z and recompute the bounding box
from the mesh transform (`setFromObject`). -/
def Obstacle.update (o : Obstacle) (dt : ℚ) : Obstacle :=
  if !o.active then o
  else
    let pos : V3 := ⟨o.pos.x, o.pos.y, o.pos.z + o.speed * dt⟩
    { o with pos := pos, boundingBox := boxAt pos o.half }

/-- Obstacle pool manager. -/
structure ObstacleManager where
  pool : List Obstacle
  spawnTimer : ℚ
deriving DecidableEq, Repr, Inhabited

/-- `this.spawnInterval = 1.2`. -/
def ObstacleManager.spawnInterval : ℚ := 6/5

/-- `this.baseSpeed = 15`. -/
def ObstacleManager.baseSpeed : ℚ := 15

/-- `this.spawnZ = -80`. -/
def ObstacleManager.spawnZ : ℚ := -80

/-- `this.despawnZ = 10`. -/
def ObstacleManager.despawnZ : ℚ := 10

/-- `this.trackWidth = 10`. -/
def ObstacleManager.trackWidth : ℚ := 10

/-- `ObstacleManager._getInactive`: first inactive slot, or none. -/
def ObstacleManager.getInactive (m : ObstacleManager) : Option Obstacle :=
  m.pool.find? (fun o => !o.active)

/-- The find-first-inactive-slot-and-activate step of `_spawnObstacle`, as
one pass (the source mutates the found slot in place); a fully active pool
is returned unchanged. -/
def obActivateFirst (f : Obstacle → Obstacle) : List Obstacle → List Obstacle
  | [] => []
  | o :: rest => if !o.active then f o :: rest else o :: obActivateFirst f rest

/-- `ObstacleManager._spawnObstacle(speed, forceExplosive)`: lateral position
uniform over the track minus a margin, 15% explosive chance, dropped
silently when the pool is exhausted. -/
def ObstacleManager.spawnObstacle (m : ObstacleManager) (speed : ℚ)
    (forceExplosive : Bool) (d : ObSpawnDraw) : ObstacleManager :=
  let halfTrack := ObstacleManager.trackWidth / 2 - 1
  let x := (d.xRoll * 2 - 1) * halfTrack
  let explosive := forceExplosive || decide (d.explosiveRoll < 3/20)
  let pool' := obActivateFirst
    (fun o => o.activate x ObstacleManager.spawnZ speed explosive d) m.pool
  { m with pool := pool' }

/-- `ObstacleManager.update(dt, score)`: spawn scheduling (interval from the
difficulty scalar, overshoot discarded, up to two extra spawns behind
difficulty gates), then the active-pool move/despawn pass. -/
def ObstacleManager.update (m : ObstacleManager) (dt score : ℚ) (env : Env) :
    ObstacleManager :=
  let diff := difficulty score
  let currentSpeed := ObstacleManager.baseSpeed + diff * 5
  let currentInterval := max (3/10) (ObstacleManager.spawnInterval - diff * (1/4))
  let t := m.spawnTimer + dt
  let m1 :=
    if t ≥ currentInterval then
      let ma := ObstacleManager.spawnObstacle { m with spawnTimer := 0 }
        currentSpeed false (env.obDraw 0)
      let mb := if diff > 1 ∧ env.obExtraRoll1 < 3/10 then
          ma.spawnObstacle currentSpeed false (env.obDraw 1)
        else ma
      if diff > 5/2 ∧ env.obExtraRoll2 < 1/5 then
        mb.spawnObstacle currentSpeed false (env.obDraw 2)
      else mb
    else { m with spawnTimer := t }
  { m1 with pool := m1.pool.map (fun o =>
      if !o.active then o
      else
        let o' := o.update dt
        if o'.pos.z > ObstacleManager.despawnZ then o'.deactivate else o') }

/-- The collision record `{ obstacle, isExplosive, position, color }` that
`ObstacleManager.checkCollision` returns; the obstacle reference is
represented by its slot index. -/
structure HitInfo where
  index : ℕ
  isExplosive : Bool
  position : V3
  color : ℕ
deriving DecidableEq, Repr, Inhabited

/-- The first-active-intersecting scan of `ObstacleManager.checkCollision`. -/
def obScan (playerBBox : Box3) : ℕ → List Obstacle → Option HitInfo
  | _, [] => none
  | i, o :: rest =>
    if o.active && playerBBox.intersectsBox o.boundingBox then
      some ⟨i, o.isExplosive, o.pos, o.colorTag⟩
    else obScan playerBBox (i + 1) rest

/-- `ObstacleManager.checkCollision(playerBBox)`: at most one result, the
first intersecting active obstacle in slot order. -/
def ObstacleManager.checkCollision (m : ObstacleManager) (playerBBox : Box3) :
    Option HitInfo :=
  obScan playerBBox 0 m.pool

/-- Deactivate the slot at the given index (the in-place
`obstacle.deactivate()` on the object `checkCollision` returned). -/
def obDeactivateAt : ℕ → List Obstacle → List Obstacle
  | _, [] => []
  | 0, o :: rest => o.deactivate :: rest
  | Nat.succ n, o :: rest => o :: obDeactivateAt n rest

/-- `ObstacleManager.destroyObstacle`. -/
def ObstacleManager.destroyObstacle (m : ObstacleManager) (i : ℕ) : ObstacleManager :=
  { m with pool := obDeactivateAt i m.pool }

/-- `ObstacleManager.reset`. -/
def ObstacleManager.reset (m : ObstacleManager) : ObstacleManager :=
  { pool := m.pool.map Obstacle.deactivate, spawnTimer := 0 }

/-- Power-up entity.  The source nulls the `type` tag on deactivation and
sets it at activation; since the tag of an inactive entity is never read,
the embedding keeps it as a plain enum value. -/
structure PowerUp where
  active : Bool
  type : PUType
  pos : V3
  speed : ℚ
  boundingBox : Box3
deriving DecidableEq, Repr, Inhabited

/-- `this.baseY = 1.2` in `PowerUp`. -/
def PowerUp.baseY : ℚ := 6/5

/-- `PowerUp.activate(x, z, speed, type)`. -/
def PowerUp.activate (pu : PowerUp) (x z speed : ℚ) (ty : PUType) : PowerUp :=
  { pu with active := true, type := ty, pos := ⟨x, PowerUp.baseY, z⟩, speed := speed }

/-- `PowerUp.deactivate`. -/
def PowerUp.deactivate (pu : PowerUp) : PowerUp :=
  { pu with active := false }

/-- `PowerUp.update(dt)`: advance along +z, float animation on y (wall-clock
sine, abstracted to the injected offset `floatOff`), then recompute the box
from the mesh (octahedron-plus-ring extents 0.75) and grow it by 0.2
(`expandByScalar(0.2)`, the generous pickup margin). -/
def PowerUp.update (pu : PowerUp) (dt floatOff : ℚ) : PowerUp :=
  let pos : V3 := ⟨pu.pos.x, PowerUp.baseY + floatOff, pu.pos.z + pu.speed * dt⟩
  let box := (boxAt pos ⟨3/4, 3/4, 3/4⟩).expandByScalar (1/5)
  { pu with pos := pos, boundingBox := box }

/-- `this.activePowerUp = { type, timeLeft, label, color }`. -/
structure ActivePowerUp where
  type : PUType
  timeLeft : ℚ
  label : String
  color : ℕ
deriving DecidableEq, Repr, Inhabited

/-- Power-up pool manager plus the single active-effect slot. -/
structure PowerUpManager where
  pool : List PowerUp
  spawnTimer : ℚ
  activePowerUp : Option ActivePowerUp
deriving DecidableEq, Repr, Inhabited

/-- `this.spawnInterval = 8`. -/
def PowerUpManager.spawnInterval : ℚ := 8

/-- `this.spawnZ = -80`. -/
def PowerUpManager.spawnZ : ℚ := -80

/-- `this.despawnZ = 10`. -/
def PowerUpManager.despawnZ : ℚ := 10

/-- `this.trackWidth = 10`. -/
def PowerUpManager.trackWidth : ℚ := 10

/-- `PowerUpManager._getInactive`. -/
def PowerUpManager.getInactive (m : PowerUpManager) : Option PowerUp :=
  m.pool.find? (fun pu => !pu.active)

/-- Find-first-inactive-and-activate pass for the power-up pool. -/
def puActivateFirst (f : PowerUp → PowerUp) : List PowerUp → List PowerUp
  | [] => []
  | pu :: rest => if !pu.active then f pu :: rest else pu :: puActivateFirst f rest

/-- `PowerUpManager.update(dt, score)`: spawn scheduling (interval shrinking
with difficulty but never below 5 s, a 60% roll to actually spawn), the
active-pool move/despawn pass, then the active-effect countdown
(`timeLeft -= dt`; cleared once `timeLeft <= 0`). -/
def PowerUpManager.update (m : PowerUpManager) (dt score : ℚ) (env : Env) :
    PowerUpManager :=
  let diff := difficulty score
  let currentSpeed := 15 + diff * 5
  let t := m.spawnTimer + dt
  let interval := max 5 (PowerUpManager.spawnInterval - diff * (1/2))
  let m1 :=
    if t ≥ interval then
      let m0 := { m with spawnTimer := 0 }
      if env.puSpawnRoll < 3/5 then
        let halfTrack := PowerUpManager.trackWidth / 2 - 1
        let x := (env.puXRoll * 2 - 1) * halfTrack
        let pool' := puActivateFirst
          (fun pu => pu.activate x PowerUpManager.spawnZ currentSpeed env.puType) m0.pool
        { m0 with pool := pool' }
      else m0
    else { m with spawnTimer := t }
  let m2 := { m1 with pool := m1.pool.map (fun (pu : PowerUp) =>
      if !pu.active then pu
      else
        let pu' := pu.update dt env.puFloat
        if pu'.pos.z > PowerUpManager.despawnZ then pu'.deactivate else pu') }
  match m2.activePowerUp with
  | some a =>
      if a.timeLeft - dt ≤ 0 then { m2 with activePowerUp := none }
      else { m2 with activePowerUp := some { a with timeLeft := a.timeLeft - dt } }
  | none => m2

/-- The pickup record `{ type, color, position }` that
`PowerUpManager.checkCollision` returns. -/
structure Pickup where
  type : PUType
  color : ℕ
  position : V3
deriving DecidableEq, Repr, Inhabited

/-- The scan of `PowerUpManager.checkCollision`: the first intersecting
active power-up is deactivated in place and reported. -/
def puScan (playerBBox : Box3) : List PowerUp → List PowerUp × Option Pickup
  | [] => ([], none)
  | pu :: rest =>
    if pu.active && playerBBox.intersectsBox pu.boundingBox then
      (pu.deactivate :: rest, some ⟨pu.type, pu.type.color, pu.pos⟩)
    else
      let r := puScan playerBBox rest
      (pu :: r.1, r.2)

/-- `PowerUpManager.checkCollision(playerBBox)`: on pickup the entity is
deactivated and the active-effect slot is overwritten with
`{ type, timeLeft: duration, label, color }`. -/
def PowerUpManager.checkCollision (m : PowerUpManager) (playerBBox : Box3) :
    PowerUpManager × Option Pickup :=
  match puScan playerBBox m.pool with
  | (pool', some pk) =>
      let slot : Option ActivePowerUp :=
        some ⟨pk.type, pk.type.duration, pk.type.label, pk.type.color⟩
      ({ m with pool := pool', activePowerUp := slot }, some pk)
  | (pool', none) => ({ m with pool := pool' }, none)

/-- `PowerUpManager.hasShield`. -/
def PowerUpManager.hasShield (m : PowerUpManager) : Bool :=
  match m.activePowerUp with
  | some a => a.type == .SHIELD
  | none => false

/-- `PowerUpManager.hasDouble`. -/
def PowerUpManager.hasDouble (m : PowerUpManager) : Bool :=
  match m.activePowerUp with
  | some a => a.type == .DOUBLE
  | none => false

/-- `PowerUpManager.hasShatter`. -/
def PowerUpManager.hasShatter (m : PowerUpManager) : Bool :=
  match m.activePowerUp with
  | some a => a.type == .SHATTER
  | none => false

/-- `PowerUpManager.reset`. -/
def PowerUpManager.reset (m : PowerUpManager) : PowerUpManager :=
  { pool := m.pool.map PowerUp.deactivate, spawnTimer := 0, activePowerUp := none }

/-- Pooled particle. -/
structure Particle where
  active : Bool
  pos : V3
  velocity : V3
  life : ℚ
  maxLife : ℚ
  size : ℚ
  color : ℕ
deriving DecidableEq, Repr, Inhabited

/-- `Particle.activate(position, velocity, color, life, size)`. -/
def Particle.activate (p : Particle) (pos vel : V3) (color : ℕ) (life size : ℚ) :
    Particle :=
  { p with
    active := true
    pos := pos
    velocity := vel
    color := color
    life := life
    maxLife := life
    size := size }

/-- `Particle.deactivate`. -/
def Particle.deactivate (p : Particle) : Particle :=
  { p with active := false }

/-- `Particle.update(dt)`: move, constant downward acceleration on the
velocity, decrement `life`, deactivate at `life <= 0` (spin/fade are
rendering concerns). -/
def Particle.update (p : Particle) (dt : ℚ) : Particle :=
  if !p.active then p
  else
    let pos : V3 := ⟨p.pos.x + p.velocity.x * dt, p.pos.y + p.velocity.y * dt,
      p.pos.z + p.velocity.z * dt⟩
    let vel : V3 := ⟨p.velocity.x, p.velocity.y - 15 * dt, p.velocity.z⟩
    let life := p.life - dt
    let p' := { p with pos := pos, velocity := vel, life := life }
    if life ≤ 0 then p'.deactivate else p'

/-- `ParticleSystem._getInactive`. -/
def pGetInactive (pool : List Particle) : Option Particle :=
  pool.find? (fun p => !p.active)

/-- Find-first-inactive-and-activate for the particle pool; `none` when the
pool is exhausted (the burst loop breaks). -/
def pActivateFirst (f : Particle → Particle) : List Particle → Option (List Particle)
  | [] => none
  | p :: rest =>
    if !p.active then some (f p :: rest)
    else (pActivateFirst f rest).map (fun r => p :: r)

/-- The `for (i = 0; i < count; i++) { ... if (!p) break; ... }` burst loop
shared by the three spawners: draw up to `count` slots, stopping early when
the pool is exhausted. -/
def spawnLoop (mk : ℕ → Particle → Particle) : ℕ → ℕ → List Particle → List Particle
  | 0, _, pool => pool
  | n + 1, i, pool =>
    match pActivateFirst (mk i) pool with
    | none => pool
    | some pool' => spawnLoop mk n (i + 1) pool'

/-- `ParticleSystem.spawnShatter(position, color, count)`. -/
def spawnShatter (draw : ℕ → ShatterDraw) (position : V3) (color : ℕ) (count : ℕ)
    (pool : List Particle) : List Particle :=
  spawnLoop (fun i p =>
    let d := draw i
    let vel : V3 := ⟨(d.v1 - 1/2) * 12, d.v2 * 8 + 2, (d.v3 - 1/2) * 12⟩
    let size := 2/25 + d.sizeRoll * (3/20)
    p.activate position vel color (4/5 + d.lifeRoll * (1/2)) size) count 0 pool

/-- The explosion color palette. -/
def EXPLOSION_COLORS : List ℕ := [0xff3300, 0xff6600, 0xffcc00, 0xff0000]

/-- `ParticleSystem.spawnExplosion(position, count)`. -/
def spawnExplosion (draw : ℕ → ExplosionDraw) (position : V3) (count : ℕ)
    (pool : List Particle) : List Particle :=
  spawnLoop (fun i p =>
    let d := draw i
    let force := 6 + d.forceRoll * 10
    let vel : V3 := ⟨d.dir.x * force, d.dir.y * force + 3, d.dir.z * force⟩
    let color := EXPLOSION_COLORS.getD d.colorIdx.val 0
    p.activate position vel color (3/5 + d.lifeRoll * (3/5)) (1/10 + d.sizeRoll * (1/4)))
    count 0 pool

/-- `ParticleSystem.spawnPickup(position, color, count)`. -/
def spawnPickup (draw : ℕ → PickupDraw) (position : V3) (color : ℕ) (count : ℕ)
    (pool : List Particle) : List Particle :=
  spawnLoop (fun i p =>
    let d := draw i
    let vel : V3 := ⟨(d.v1 - 1/2) * 6, d.v2 * 6 + 3, (d.v3 - 1/2) * 6⟩
    p.activate position vel color (1/2 + d.lifeRoll * (3/10)) (1/10)) count 0 pool

/-- `ParticleSystem.update(dt)` (per-entity guard sits in `Particle.update`). -/
def particlesUpdate (pool : List Particle) (dt : ℚ) : List Particle :=
  pool.map (fun p => p.update dt)

/-- `ParticleSystem.reset`. -/
def particlesReset (pool : List Particle) : List Particle :=
  pool.map Particle.deactivate

/-- The `STATE` enum of the game state machine. -/
inductive GState
  | MENU
  | PLAYING
  | GAME_OVER
deriving DecidableEq, Repr, Inhabited

/-- The discrete per-tick notifications the core emits to the audio/HUD
collaborators (`audio.playJump`, `playMilestone`, `playPickup`,
`playShatter`, `playExplosion`, `playHit`), recorded as a trace. -/
inductive GEvent
  | jump
  | milestone
  | pickup
  | shatter
  | explosion
  | hit
deriving DecidableEq, Repr, Inhabited

/-- The `Game` session state owned by the core (renderer/camera/DOM fields
of the source class are excluded collaborators). -/
structure Game where
  state : GState
  score : ℕ
  scoreTimer : ℚ
  lastMilestone : ℕ
  player : Player
  obstacles : ObstacleManager
  powerups : PowerUpManager
  particles : List Particle
  events : List GEvent
deriving DecidableEq, Repr, Inhabited

/-- `this.fixedTimeStep = 1 / 60`. -/
def fixedTimeStep : ℚ := 1/60

/-- Result of the score-increment block of `Game._update`. -/
structure ScoreResult where
  score : ℕ
  scoreTimer : ℚ
  lastMilestone : ℕ
  milestoneFired : Bool
deriving DecidableEq, Repr, Inhabited

/-- The score-increment block of `Game._update`: accumulate `dt` into
`scoreTimer`; at `scoreTimer >= 0.1` reset the timer to 0 and add 2 points
if DOUBLE is active else 1, then fire the milestone sound exactly when
`Math.floor(score / 50)` exceeds `lastMilestone`, jumping `lastMilestone`
to the new index. -/
def scoreStep (score : ℕ) (scoreTimer : ℚ) (lastMilestone : ℕ) (dt : ℚ)
    (double : Bool) : ScoreResult :=
  let t := scoreTimer + dt
  if t ≥ 1/10 then
    let points := if double then 2 else 1
    let score' := score + points
    let milestone := score' / 50
    if milestone > lastMilestone then ⟨score', 0, milestone, true⟩
    else ⟨score', 0, lastMilestone, false⟩
  else ⟨score, t, lastMilestone, false⟩

/-- First part of `Game._update` (lines up to the power-up collision): jump
consumption, subsystem updates (player, obstacles, power-ups, particles —
scheduler and countdown see the pre-increment score), then the score
increment block. -/
def Game.tickPhase1 (g : Game) (dt : ℚ) (inp : InputActions) (jumpReq : Bool)
    (env : Env) : Game :=
  let jr := if jumpReq then g.player.jump else (g.player, false)
  let ev0 := if jr.2 then g.events ++ [GEvent.jump] else g.events
  let player := jr.1.update dt inp
  let obstacles := g.obstacles.update dt (g.score : ℚ) env
  let powerups := g.powerups.update dt (g.score : ℚ) env
  let particles := particlesUpdate g.particles dt
  let sr := scoreStep g.score g.scoreTimer g.lastMilestone dt powerups.hasDouble
  let ev1 := if sr.milestoneFired then ev0 ++ [GEvent.milestone] else ev0
  { state := g.state
    score := sr.score
    scoreTimer := sr.scoreTimer
    lastMilestone := sr.lastMilestone
    player := player
    obstacles := obstacles
    powerups := powerups
    particles := particles
    events := ev1 }

/-- The power-up collision block of `Game._update`: scan the power-up pool
against the player's box; on pickup, spawn the sparkle burst and emit the
pickup notification (the scan itself already installed the active effect). -/
def Game.pickupPhase (g : Game) (env : Env) : Game :=
  match g.powerups.checkCollision g.player.boundingBox with
  | (powerups', some pk) =>
      let particles := spawnPickup env.pickupDraw pk.position pk.color 15 g.particles
      { g with
        powerups := powerups'
        particles := particles
        events := g.events ++ [GEvent.pickup] }
  | (powerups', none) => { g with powerups := powerups' }

/-- The obstacle collision block of `Game._update` plus `Game._gameOver`:
SHATTER destroys the obstacle with a burst and +5 bonus; else SHIELD
destroys it silently; else the hit is fatal (explosion effects for an
explosive obstacle, then game over: hit sound and a player-position
explosion burst; the second burst reads the draw stream past the first's). -/
def Game.resolveObstacle (g : Game) (env : Env) : Game :=
  match g.obstacles.checkCollision g.player.boundingBox with
  | some hit =>
      if g.powerups.hasShatter then
        let particles := spawnShatter env.shatterDraw hit.position hit.color 25 g.particles
        let obstacles := g.obstacles.destroyObstacle hit.index
        { g with
          particles := particles
          obstacles := obstacles
          events := g.events ++ [GEvent.shatter]
          score := g.score + 5 }
      else if g.powerups.hasShield then
        let particles := spawnShatter env.shatterDraw hit.position 0x00ffff 12 g.particles
        let obstacles := g.obstacles.destroyObstacle hit.index
        { g with particles := particles, obstacles := obstacles }
      else
        let pe :=
          if hit.isExplosive then
            (spawnExplosion env.explosionDraw hit.position 50 g.particles,
             g.events ++ [GEvent.explosion])
          else (g.particles, g.events)
        let particles := spawnExplosion (fun i => env.explosionDraw (50 + i))
          ⟨g.player.posX, g.player.posY, 0⟩ 50 pe.1
        { g with
          state := GState.GAME_OVER
          particles := particles
          events := pe.2 ++ [GEvent.hit] }
  | none => g

/-- `Game._update(dt)`: a no-op unless PLAYING; otherwise the three phases
in source order — subsystems and scoring, then the power-up pool scan, then
the obstacle pool scan and resolution. -/
def Game.update (g : Game) (dt : ℚ) (inp : InputActions) (jumpReq : Bool)
    (env : Env) : Game :=
  if g.state ≠ GState.PLAYING then g
  else ((g.tickPhase1 dt inp jumpReq env).pickupPhase env).resolveObstacle env

/-- `Game._startGame()`: enter PLAYING with score 0, timers and milestone
index cleared, the player reset, and every pool cleared to fully inactive
(the whole transition is one atomic step of the embedding). -/
def Game.startGame (g : Game) : Game :=
  { g with
    state := GState.PLAYING
    score := 0
    scoreTimer := 0
    lastMilestone := 0
    player := g.player.reset
    obstacles := g.obstacles.reset
    powerups := g.powerups.reset
    particles := particlesReset g.particles }

/-- The accumulator-draining `while` loop of `Game._animate`, abstracted to
its numeric effect: number of whole fixed steps drained and the remainder. -/
def drainSteps (acc : ℚ) : ℕ × ℚ :=
  if h : fixedTimeStep ≤ acc then
    let r := drainSteps (acc - fixedTimeStep)
    (r.1 + 1, r.2)
  else (0, acc)
termination_by (⌈acc * 60⌉).toNat
decreasing_by
  simp_wf
  have hx : (1:ℚ)/60 ≤ acc := by simpa [fixedTimeStep] using h
  have h1 : (acc - fixedTimeStep) * 60 = acc * 60 - 1 := by
    simp only [fixedTimeStep]; ring
  have h3 : ⌈(acc - fixedTimeStep) * 60⌉ = ⌈acc * 60⌉ - 1 := by
    rw [h1]; exact Int.ceil_sub_one (acc * 60)
  constructor
  · omega
  · linarith

/-- The same `while` loop carrying the game: one full `Game._update` tick
per drained fixed step (the one-shot jump flag is consumed by the first
tick of the frame; each tick consumes its own randomness). -/
def Game.drainLoop (g : Game) (acc : ℚ) (inp : InputActions) (jumpReq : Bool)
    (envs : ℕ → Env) : Game × ℚ × ℕ :=
  if h : fixedTimeStep ≤ acc then
    let g' := g.update fixedTimeStep inp jumpReq (envs 0)
    let r := g'.drainLoop (acc - fixedTimeStep) inp false (fun n => envs (n + 1))
    (r.1, r.2.1, r.2.2 + 1)
  else (g, acc, 0)
termination_by (⌈acc * 60⌉).toNat
decreasing_by
  simp_wf
  have hx : (1:ℚ)/60 ≤ acc := by simpa [fixedTimeStep] using h
  have h1 : (acc - fixedTimeStep) * 60 = acc * 60 - 1 := by
    simp only [fixedTimeStep]; ring
  have h3 : ⌈(acc - fixedTimeStep) * 60⌉ = ⌈acc * 60⌉ - 1 := by
    rw [h1]; exact Int.ceil_sub_one (acc * 60)
  constructor
  · omega
  · linarith

/-- One host frame of `Game._animate` while PLAYING: the raw delta is
clamped to 0.1 s, added to the accumulator, and the loop drains whole fixed
steps leaving the sub-step remainder; outside PLAYING only the idle
animation runs (particles advance by 0.016 s, no accumulator change). -/
def Game.animateFrame (g : Game) (acc rawDt : ℚ) (inp : InputActions)
    (jumpReq : Bool) (envs : ℕ → Env) : Game × ℚ :=
  if g.state = GState.PLAYING then
    let dt := min rawDt (1/10)
    let r := g.drainLoop (acc + dt) inp jumpReq envs
    (r.1, r.2.1)
  else
    ({ g with particles := particlesUpdate g.particles (2/125) }, acc)

/-- The countdown semantics of the single active-effect slot (`timeLeft`
decreases by `dt`; the slot is cleared once it reaches `<= 0`), as a
standalone function for stating how `PowerUpManager.update` acts on it. -/
def tickActive (ap : Option ActivePowerUp) (dt : ℚ) : Option ActivePowerUp :=
  match ap with
  | some a =>
      if a.timeLeft - dt ≤ 0 then none
      else some { a with timeLeft := a.timeLeft - dt }
  | none => none

/-- One fixed-step application of the score-increment block, for stating
the per-0.1 s scoring cadence. -/
def scoreIter (double : Bool) (st : ScoreResult) : ScoreResult :=
  scoreStep st.score st.scoreTimer st.lastMilestone fixedTimeStep double

/-! ### Concrete inputs used by witnesses and counterexamples -/

/-- A fixed randomness oracle: all rolls zero, first alternatives. -/
def env0 : Env :=
  { obDraw := fun _ => default
    obExtraRoll1 := 0
    obExtraRoll2 := 0
    puSpawnRoll := 0
    puXRoll := 0
    puType := PUType.SHIELD
    puFloat := 0
    shatterDraw := fun _ => default
    explosionDraw := fun _ => default
    pickupDraw := fun _ => default }

/-- Neutral input snapshot. -/
def inp0 : InputActions := ⟨false, false⟩

/-- A grounded player at the start position whose stored box is the cube of
half-extent 1/2 around the mesh position. -/
def player0 : Player :=
  { posX := 0
    posY := 3/5
    velocityY := 0
    isGrounded := true
    boundingBox := boxAt ⟨0, 3/5, 0⟩ ⟨1/2, 1/2, 1/2⟩ }

/-- An active non-explosive obstacle sitting on the player's position. -/
def obA : Obstacle :=
  { active := true
    pos := ⟨0, 3/5, 0⟩
    speed := 0
    isExplosive := false
    half := ⟨1/2, 1/2, 1/2⟩
    colorTag := 0xff0055
    boundingBox := boxAt ⟨0, 3/5, 0⟩ ⟨1/2, 1/2, 1/2⟩ }

/-- A second such obstacle with a different color tag. -/
def obB : Obstacle :=
  { obA with colorTag := 0x00ff88 }

/-- The collision record `checkCollision` reports for `obA` in slot 0. -/
def hitA : HitInfo := ⟨0, false, ⟨0, 3/5, 0⟩, 0xff0055⟩

/-- An active SHIELD power-up entity resting at the spawn height over the
player. -/
def puShield : PowerUp :=
  { active := true
    type := PUType.SHIELD
    pos := ⟨0, 6/5, 0⟩
    speed := 0
    boundingBox := boxAt ⟨0, 6/5, 0⟩ ⟨3/4, 3/4, 3/4⟩ }

/-- Game used by the C1 witness: PLAYING with SHATTER active and `obA`
intersecting the player's stored box. -/
def gC1 : Game :=
  { state := GState.PLAYING
    score := 10
    scoreTimer := 0
    lastMilestone := 0
    player := player0
    obstacles := { pool := [obA], spawnTimer := 0 }
    powerups := { pool := [], spawnTimer := 0,
                  activePowerUp := some ⟨PUType.SHATTER, 2, PUType.SHATTER.label, PUType.SHATTER.color⟩ }
    particles := []
    events := [] }

/-- Start state of the C6 counterexample run: score 48, SHATTER active with
0.025 s left, two obstacles overlapping the player. -/
def gC6s : Game :=
  { state := GState.PLAYING
    score := 48
    scoreTimer := 0
    lastMilestone := 0
    player := player0
    obstacles := { pool := [obA, obB], spawnTimer := 0 }
    powerups := { pool := [], spawnTimer := 0,
                  activePowerUp := some ⟨PUType.SHATTER, 1/40, PUType.SHATTER.label, PUType.SHATTER.color⟩ }
    particles := []
    events := [] }

/-- The C6 run after one fixed step (the SHATTER +5 crossing of 50). -/
def gC6a : Game := gC6s.update fixedTimeStep inp0 false env0

/-- The C6 run after the second fixed step (SHATTER expired, fatal hit). -/
def gC6b : Game := gC6a.update fixedTimeStep inp0 false env0

/-- Game used by the C8 witness: PLAYING with a SHIELD power-up and an
obstacle both overlapping the player in the same tick. -/
def gC8 : Game :=
  { state := GState.PLAYING
    score := 0
    scoreTimer := 0
    lastMilestone := 0
    player := player0
    obstacles := { pool := [obA], spawnTimer := 0 }
    powerups := { pool := [puShield], spawnTimer := 0, activePowerUp := none }
    particles := []
    events := [] }

/-- The pickup record of that same-tick SHIELD collection. -/
def pkShield : Pickup := ⟨PUType.SHIELD, PUType.SHIELD.color, ⟨0, 6/5, 0⟩⟩

/-- A GAME_OVER state with leftover entities, for the C7 witness. -/
def gGO : Game :=
  { state := GState.GAME_OVER
    score := 53
    scoreTimer := 1/30
    lastMilestone := 1
    player := player0
    obstacles := { pool := [obA, obB], spawnTimer := 1/2 }
    powerups := { pool := [puShield], spawnTimer := 2,
                  activePowerUp := some ⟨PUType.DOUBLE, 3, PUType.DOUBLE.label, PUType.DOUBLE.color⟩ }
    particles := []
    events := [GEvent.shatter, GEvent.hit] }

/-- Power-up manager used by the C2 witness: one SHIELD entity intersecting
the probe box, a DOUBLE effect already active (to exhibit the overwrite). -/
def mPk : PowerUpManager :=
  { pool := [puShield]
    spawnTimer := 0
    activePowerUp := some ⟨PUType.DOUBLE, 3, PUType.DOUBLE.label, PUType.DOUBLE.color⟩ }

/-- Probe box for the C2 witness pickup. -/
def boxW : Box3 := boxAt ⟨0, 6/5, 0⟩ ⟨1/2, 1/2, 1/2⟩

/-- Manager with a freshly activated SHIELD effect, for the C2 countdown
witness. -/
def mSh : PowerUpManager :=
  { pool := []
    spawnTimer := 0
    activePowerUp := some ⟨PUType.SHIELD, 5, PUType.SHIELD.label, PUType.SHIELD.color⟩ }

/-- A step sequence totalling 5.01 s of simulated time. -/
def stepsW : List (ℚ × ℚ × Env) := [(3, 0, env0), (201/100, 0, env0)]

/-- An active particle slot, for the exhausted-pool part of C4. -/
def partA : Particle :=
  { active := true
    pos := ⟨0, 1, 0⟩
    velocity := ⟨0, 2, 0⟩
    life := 1/2
    maxLife := 1/2
    size := 1/10
    color := 0xffffff }

/-- A PLAYING game with small pools, for the C4 fold witness. -/
def gC4 : Game :=
  { state := GState.PLAYING
    score := 0
    scoreTimer := 0
    lastMilestone := 0
    player := player0
    obstacles := { pool := [obA], spawnTimer := 0 }
    powerups := { pool := [puShield], spawnTimer := 0, activePowerUp := none }
    particles := [partA]
    events := [] }

/-- Two fixed steps for the C4 fold witness. -/
def stepsC4 : List (ℚ × InputActions × Bool × Env) :=
  [(fixedTimeStep, inp0, false, env0), (fixedTimeStep, inp0, false, env0)]

/-- A fully active (exhausted) obstacle pool. -/
def obFullM : ObstacleManager := { pool := [obA], spawnTimer := 0 }

/-- A fully active (exhausted) power-up pool. -/
def puFullM : PowerUpManager := { pool := [puShield], spawnTimer := 0, activePowerUp := none }

/-- A fully active (exhausted) particle pool. -/
def partFull : List Particle := [partA]

/-! ### Helper lemmas: pool lengths and scan characterizations -/

theorem obActivateFirst_length (f : Obstacle → Obstacle) :
    ∀ pool : List Obstacle, (obActivateFirst f pool).length = pool.length := by
  intro pool
  induction pool with
  | nil => rfl
  | cons o rest ih => simp only [obActivateFirst]; split <;> simp [ih]

theorem puActivateFirst_length (f : PowerUp → PowerUp) :
    ∀ pool : List PowerUp, (puActivateFirst f pool).length = pool.length := by
  intro pool
  induction pool with
  | nil => rfl
  | cons pu rest ih => simp only [puActivateFirst]; split <;> simp [ih]

theorem pActivateFirst_length (f : Particle → Particle) :
    ∀ (pool pool' : List Particle), pActivateFirst f pool = some pool' →
      pool'.length = pool.length := by
  intro pool
  induction pool with
  | nil => intro pool' h; exact absurd h (by simp [pActivateFirst])
  | cons p rest ih =>
      intro pool' h
      simp only [pActivateFirst] at h
      split at h
      · cases h; simp
      · obtain ⟨r, hr, hr2⟩ := Option.map_eq_some'.mp h
        subst hr2
        simp [ih r hr]

theorem spawnLoop_length (mk : ℕ → Particle → Particle) :
    ∀ (n i : ℕ) (pool : List Particle), (spawnLoop mk n i pool).length = pool.length := by
  intro n
  induction n with
  | zero => intro i pool; rfl
  | succ n ih =>
      intro i pool
      simp only [spawnLoop]
      cases h : pActivateFirst (mk i) pool with
      | none => rfl
      | some pool' => rw [ih (i + 1) pool', pActivateFirst_length (mk i) pool pool' h]

theorem obDeactivateAt_length :
    ∀ (i : ℕ) (pool : List Obstacle), (obDeactivateAt i pool).length = pool.length := by
  intro i pool
  induction pool generalizing i with
  | nil => cases i <;> rfl
  | cons o rest ih => cases i with
      | zero => simp [obDeactivateAt]
      | succ n => simp [obDeactivateAt, ih]

theorem puScan_fst_length (box : Box3) :
    ∀ pool : List PowerUp, ((puScan box pool).1).length = pool.length := by
  intro pool
  induction pool with
  | nil => rfl
  | cons pu rest ih => simp only [puScan]; split <;> simp [ih]

theorem obScan_some_spec (box : Box3) :
    ∀ (pool : List Obstacle) (k : ℕ) (h : HitInfo),
      obScan box k pool = some h →
      ∃ pre o suf, pool = pre ++ o :: suf ∧ h.index = k + pre.length ∧
        (∀ o' ∈ pre, ¬(o'.active = true ∧ box.intersectsBox o'.boundingBox = true)) ∧
        o.active = true ∧ box.intersectsBox o.boundingBox = true ∧
        h.isExplosive = o.isExplosive ∧ h.position = o.pos ∧ h.color = o.colorTag := by
  intro pool
  induction pool with
  | nil => intro k h hs; exact absurd hs (by simp [obScan])
  | cons o rest ih =>
      intro k h hs
      simp only [obScan] at hs
      split at hs
      · rename_i hc
        rw [Bool.and_eq_true] at hc
        cases hs
        refine ⟨[], o, rest, by simp, by simp, by simp, hc.1, hc.2, rfl, rfl, rfl⟩
      · rename_i hc
        obtain ⟨pre, o', suf, hpool, hidx, hpre, ha, hi, h1, h2, h3⟩ := ih (k + 1) h hs
        refine ⟨o :: pre, o', suf, by simp [hpool], by simp [hidx]; omega, ?_, ha, hi, h1, h2, h3⟩
        intro o'' hmem
        rcases List.mem_cons.mp hmem with hmem | hmem
        · subst hmem
          intro hand
          exact hc (by rw [Bool.and_eq_true]; exact ⟨hand.1, hand.2⟩)
        · exact hpre o'' hmem

theorem obScan_none_spec (box : Box3) :
    ∀ (pool : List Obstacle) (k : ℕ), obScan box k pool = none →
      ∀ o ∈ pool, ¬(o.active = true ∧ box.intersectsBox o.boundingBox = true) := by
  intro pool
  induction pool with
  | nil => intro k _ o hmem; exact absurd hmem (List.not_mem_nil o)
  | cons o rest ih =>
      intro k hs o' hmem
      simp only [obScan] at hs
      split at hs
      · exact absurd hs (by simp)
      · rename_i hc
        rcases List.mem_cons.mp hmem with hmem | hmem
        · subst hmem
          intro hand
          exact hc (by rw [Bool.and_eq_true]; exact ⟨hand.1, hand.2⟩)
        · exact ih (k + 1) hs o' hmem

theorem puScan_some_spec (box : Box3) :
    ∀ (pool : List PowerUp) (pk : Pickup),
      (puScan box pool).2 = some pk →
      ∃ pre pu suf, pool = pre ++ pu :: suf ∧
        (puScan box pool).1 = pre ++ pu.deactivate :: suf ∧
        (∀ pu' ∈ pre, ¬(pu'.active = true ∧ box.intersectsBox pu'.boundingBox = true)) ∧
        pu.active = true ∧ box.intersectsBox pu.boundingBox = true ∧
        pk.type = pu.type ∧ pk.color = pu.type.color ∧ pk.position = pu.pos := by
  intro pool
  induction pool with
  | nil => intro pk h; exact absurd h (by simp [puScan])
  | cons pu rest ih =>
      intro pk h
      simp only [puScan] at h ⊢
      split at h
      · rename_i hc
        rw [Bool.and_eq_true] at hc
        simp only at h
        cases h
        refine ⟨[], pu, rest, by simp, ?_, by simp, hc.1, hc.2, rfl, rfl, rfl⟩
        rw [if_pos (by rw [Bool.and_eq_true]; exact hc)]
        simp
      · rename_i hc
        simp only at h
        obtain ⟨pre, pu', suf, hpool, hfst, hpre, ha, hi, h1, h2, h3⟩ := ih pk h
        refine ⟨pu :: pre, pu', suf, by simp [hpool], ?_, ?_, ha, hi, h1, h2, h3⟩
        · rw [if_neg hc]
          simp [hfst]
        · intro pu'' hmem
          rcases List.mem_cons.mp hmem with hmem | hmem
          · subst hmem
            intro hand
            exact hc (by rw [Bool.and_eq_true]; exact ⟨hand.1, hand.2⟩)
          · exact hpre pu'' hmem

theorem puScan_none_spec (box : Box3) :
    ∀ pool : List PowerUp, (puScan box pool).2 = none →
      (puScan box pool).1 = pool := by
  intro pool
  induction pool with
  | nil => intro _; rfl
  | cons pu rest ih =>
      intro h
      simp only [puScan] at h ⊢
      split at h
      · exact absurd h (by simp)
      · rename_i hc
        simp only at h
        rw [if_neg hc]
        simp [ih h]

theorem checkCollision_some_installs (m : PowerUpManager) (box : Box3) (pk : Pickup)
    (hpk : (m.checkCollision box).2 = some pk) :
    (m.checkCollision box).1.activePowerUp =
      some ⟨pk.type, pk.type.duration, pk.type.label, pk.type.color⟩ ∧
    (m.checkCollision box).1.pool = (puScan box m.pool).1 ∧
    (m.checkCollision box).1.spawnTimer = m.spawnTimer := by
  unfold PowerUpManager.checkCollision at hpk ⊢
  cases hscan : puScan box m.pool with
  | mk pool' res =>
      rw [hscan] at hpk
      cases res with
      | none => simp at hpk
      | some pk' =>
          simp at hpk
          subst hpk
          simp

theorem tickPhase1_state (g : Game) (dt : ℚ) (inp : InputActions) (jr : Bool)
    (env : Env) : (g.tickPhase1 dt inp jr env).state = g.state := rfl

theorem pickupPhase_state (g : Game) (env : Env) :
    (g.pickupPhase env).state = g.state := by
  unfold Game.pickupPhase
  cases hc : g.powerups.checkCollision g.player.boundingBox with
  | mk pw res => cases res <;> rfl

theorem resolveObstacle_nonfatal_state (g : Game) (env : Env)
    (hsh : g.powerups.hasShatter = true ∨ g.powerups.hasShield = true) :
    (g.resolveObstacle env).state = g.state := by
  unfold Game.resolveObstacle
  cases hhit : g.obstacles.checkCollision g.player.boundingBox with
  | none => rfl
  | some hit =>
      rcases hsh with hsh | hsh
      · simp [hsh]
      · cases hst : g.powerups.hasShatter <;> simp [hst, hsh]

/-- C8: collision detection is closed-interval axis-aligned box overlap on
all three axes (touching faces intersect); the player's bounding volume is
inset by the fixed margin 0.1 on each axis, power-up bounding volumes are
outset by 0.2; each pool scan reports at most one collision per tick —
the first intersecting active entity in slot order — and the power-up pool
is scanned before the obstacle pool, so a SHIELD picked up in a tick
already protects against that same tick's obstacle collision. -/
theorem collision_detection_contract :
    (∀ a b : Box3, a.intersectsBox b = true ↔
      (a.min.x ≤ b.max.x ∧ b.min.x ≤ a.max.x ∧
       a.min.y ≤ b.max.y ∧ b.min.y ≤ a.max.y ∧
       a.min.z ≤ b.max.z ∧ b.min.z ≤ a.max.z)) ∧
    (∀ (p : Player) (dt : ℚ) (inp : InputActions),
      (p.update dt inp).boundingBox =
        (playerMeshBox (p.update dt inp).posX (p.update dt inp).posY).expandByScalar
          (-(1/10))) ∧
    (∀ (pu : PowerUp) (dt floatOff : ℚ),
      (pu.update dt floatOff).boundingBox =
        (boxAt (pu.update dt floatOff).pos ⟨3/4, 3/4, 3/4⟩).expandByScalar (1/5)) ∧
    (∀ (m : ObstacleManager) (box : Box3) (h : HitInfo),
      m.checkCollision box = some h →
      ∃ pre o suf, m.pool = pre ++ o :: suf ∧ h.index = pre.length ∧
        (∀ o' ∈ pre, ¬(o'.active = true ∧ box.intersectsBox o'.boundingBox = true)) ∧
        o.active = true ∧ box.intersectsBox o.boundingBox = true) ∧
    (∀ (m : PowerUpManager) (box : Box3) (pk : Pickup),
      (m.checkCollision box).2 = some pk →
      ∃ pre pu suf, m.pool = pre ++ pu :: suf ∧
        (∀ pu' ∈ pre, ¬(pu'.active = true ∧ box.intersectsBox pu'.boundingBox = true)) ∧
        pu.active = true ∧ box.intersectsBox pu.boundingBox = true ∧
        pk.type = pu.type) ∧
    (∀ (g : Game) (dt : ℚ) (inp : InputActions) (jr : Bool) (env : Env) (pk : Pickup),
      g.state = GState.PLAYING →
      ((g.tickPhase1 dt inp jr env).powerups.checkCollision
          (g.tickPhase1 dt inp jr env).player.boundingBox).2 = some pk →
      pk.type = PUType.SHIELD →
      (g.update dt inp jr env).state = GState.PLAYING) := by
  refine ⟨?_, ?_, ?_, ?_, ?_, ?_⟩
  · intro a b
    simp [Box3.intersectsBox, not_or, not_lt]
    tauto
  · intro p dt inp; rfl
  · intro pu dt floatOff; rfl
  · intro m box h hs
    obtain ⟨pre, o, suf, hpool, hidx, hpre, ha, hi, _, _, _⟩ :=
      obScan_some_spec box m.pool 0 h hs
    exact ⟨pre, o, suf, hpool, by omega, hpre, ha, hi⟩
  · intro m box pk hpk
    unfold PowerUpManager.checkCollision at hpk
    cases hscan : puScan box m.pool with
    | mk pool' res =>
        rw [hscan] at hpk
        cases res with
        | none => simp at hpk
        | some pk' =>
            simp only [Option.some.injEq] at hpk
            subst hpk
            obtain ⟨pre, pu, suf, hpool, _, hpre, ha, hi, hty, _, _⟩ :=
              puScan_some_spec box m.pool pk' (by rw [hscan])
            exact ⟨pre, pu, suf, hpool, hpre, ha, hi, hty⟩
  · intro g dt inp jr env pk hstate hpk hty
    have h1 := checkCollision_some_installs _ _ _ hpk
    unfold Game.update
    rw [if_neg (by simp [hstate])]
    have hpw : ((g.tickPhase1 dt inp jr env).pickupPhase env).powerups.activePowerUp =
        some ⟨pk.type, pk.type.duration, pk.type.label, pk.type.color⟩ := by
      unfold Game.pickupPhase
      cases hc : (g.tickPhase1 dt inp jr env).powerups.checkCollision
          (g.tickPhase1 dt inp jr env).player.boundingBox with
      | mk pw res =>
          rw [hc] at hpk h1
          cases res with
          | none => simp at hpk
          | some pk2 => simpa using h1.1
    have hstate2 : ((g.tickPhase1 dt inp jr env).pickupPhase env).state =
        GState.PLAYING := by
      rw [pickupPhase_state, tickPhase1_state]; exact hstate
    rw [resolveObstacle_nonfatal_state _ env
      (Or.inr (by simp [PowerUpManager.hasShield, hpw, hty]))]
    exact hstate2

set_option maxRecDepth 100000 in
set_option maxHeartbeats 1000000 in
/-- Witness for C8: a concrete PLAYING tick in which the player picks up a
SHIELD and overlaps an obstacle, and survives the tick. -/
theorem collision_detection_contract_witness :
    gC8.state = GState.PLAYING ∧
    ((gC8.tickPhase1 fixedTimeStep inp0 false env0).powerups.checkCollision
        (gC8.tickPhase1 fixedTimeStep inp0 false env0).player.boundingBox).2 =
      some pkShield ∧
    pkShield.type = PUType.SHIELD ∧
    (gC8.update fixedTimeStep inp0 false env0).state = GState.PLAYING :=
  ⟨rfl, by with_unfolding_all rfl, rfl,
   collision_detection_contract.2.2.2.2.2 gC8 fixedTimeStep inp0 false env0 pkShield
     rfl (by with_unfolding_all rfl) rfl⟩

theorem obDeactivateAt_append (pre : List Obstacle) (o : Obstacle) (suf : List Obstacle) :
    obDeactivateAt pre.length (pre ++ o :: suf) = pre ++ o.deactivate :: suf := by
  induction pre with
  | nil => rfl
  | cons p rest ih => simp [obDeactivateAt, ih]

theorem obDeactivateAt_countP (pre : List Obstacle) (o : Obstacle) (suf : List Obstacle)
    (ha : o.active = true) :
    ((obDeactivateAt pre.length (pre ++ o :: suf)).countP (fun x => x.active)) + 1 =
      (pre ++ o :: suf).countP (fun x => x.active) := by
  rw [obDeactivateAt_append]
  simp [List.countP_append, List.countP_cons, ha, Obstacle.deactivate]
  omega

/-- C1: at obstacle-collision resolution during PLAYING — with SHATTER
active the colliding obstacle is destroyed, exactly +5 bonus is added on
top of whatever the periodic increment already produced, the power-up state
is untouched and the session does not end; with SHIELD (and not SHATTER)
the obstacle is destroyed with no bonus and no game over; otherwise (no
power-up, or DOUBLE) the collision is fatal: the phase becomes GAME_OVER
and no bonus is awarded. -/
theorem obstacle_resolution_cases :
    ∀ (g : Game) (env : Env) (hit : HitInfo),
      g.state = GState.PLAYING →
      g.obstacles.checkCollision g.player.boundingBox = some hit →
      ((g.powerups.hasShatter = true →
        (g.resolveObstacle env).score = g.score + 5 ∧
        (g.resolveObstacle env).state = GState.PLAYING ∧
        (g.resolveObstacle env).powerups = g.powerups ∧
        (g.resolveObstacle env).obstacles.pool =
          obDeactivateAt hit.index g.obstacles.pool ∧
        ((g.resolveObstacle env).obstacles.pool.countP (fun o => o.active)) + 1 =
          g.obstacles.pool.countP (fun o => o.active)) ∧
      (g.powerups.hasShatter = false → g.powerups.hasShield = true →
        (g.resolveObstacle env).score = g.score ∧
        (g.resolveObstacle env).state = GState.PLAYING ∧
        (g.resolveObstacle env).powerups = g.powerups ∧
        ((g.resolveObstacle env).obstacles.pool.countP (fun o => o.active)) + 1 =
          g.obstacles.pool.countP (fun o => o.active)) ∧
      (g.powerups.hasShatter = false → g.powerups.hasShield = false →
        (g.resolveObstacle env).state = GState.GAME_OVER ∧
        (g.resolveObstacle env).score = g.score ∧
        (g.resolveObstacle env).powerups = g.powerups)) := by
  intro g env hit hstate hhit
  obtain ⟨pre, o, suf, hpool, hidx, hpre, ha, hi, _, _, _⟩ :=
    obScan_some_spec g.player.boundingBox g.obstacles.pool 0 hit hhit
  have hcount : (obDeactivateAt hit.index g.obstacles.pool).countP (fun x => x.active) + 1 =
      g.obstacles.pool.countP (fun x => x.active) := by
    rw [hpool, show hit.index = pre.length by omega]
    exact obDeactivateAt_countP pre o suf ha
  refine ⟨?_, ?_, ?_⟩
  · intro hshat
    unfold Game.resolveObstacle
    rw [hhit]
    simp only [hshat]
    exact ⟨rfl, hstate, rfl, rfl, hcount⟩
  · intro hshat hshield
    unfold Game.resolveObstacle
    rw [hhit]
    simp only [hshat, hshield]
    exact ⟨rfl, hstate, rfl, hcount⟩
  · intro hshat hshield
    unfold Game.resolveObstacle
    rw [hhit]
    simp only [hshat, hshield]
    exact ⟨rfl, rfl, rfl⟩

set_option maxRecDepth 100000 in
set_option maxHeartbeats 1000000 in
/-- Witness for C1: a concrete PLAYING state with SHATTER active and a
colliding obstacle, where resolution awards +5, destroys the obstacle and
keeps the session alive. -/
theorem obstacle_resolution_cases_witness :
    gC1.state = GState.PLAYING ∧
    gC1.obstacles.checkCollision gC1.player.boundingBox = some hitA ∧
    gC1.powerups.hasShatter = true ∧
    ((gC1.resolveObstacle env0).score = gC1.score + 5 ∧
     (gC1.resolveObstacle env0).state = GState.PLAYING ∧
     (gC1.resolveObstacle env0).powerups = gC1.powerups ∧
     (gC1.resolveObstacle env0).obstacles.pool =
       obDeactivateAt hitA.index gC1.obstacles.pool ∧
     ((gC1.resolveObstacle env0).obstacles.pool.countP (fun o => o.active)) + 1 =
       gC1.obstacles.pool.countP (fun o => o.active)) :=
  ⟨rfl, by with_unfolding_all rfl, rfl,
   (obstacle_resolution_cases gC1 env0 hitA rfl (by with_unfolding_all rfl)).1 rfl⟩

theorem puScan_countP (box : Box3) (pool : List PowerUp) (pk : Pickup)
    (h : (puScan box pool).2 = some pk) :
    ((puScan box pool).1.countP (fun pu => pu.active)) + 1 =
      pool.countP (fun pu => pu.active) := by
  obtain ⟨pre, pu, suf, hpool, hfst, _, ha, _, _, _, _⟩ := puScan_some_spec box pool pk h
  rw [hfst, hpool]
  simp [List.countP_append, List.countP_cons, ha, PowerUp.deactivate]
  omega

theorem update_activePowerUp (m : PowerUpManager) (dt score : ℚ) (env : Env) :
    (m.update dt score env).activePowerUp = tickActive m.activePowerUp dt := by
  unfold PowerUpManager.update tickActive
  dsimp only
  split_ifs <;> cases h : m.activePowerUp <;> simp [h]
  all_goals split_ifs <;> rfl

theorem update_activePowerUp_none (m : PowerUpManager) (dt score : ℚ) (env : Env)
    (h : m.activePowerUp = none) : (m.update dt score env).activePowerUp = none := by
  rw [update_activePowerUp, h]
  rfl

theorem update_activePowerUp_pos (m : PowerUpManager) (dt score : ℚ) (env : Env)
    (a' : ActivePowerUp) (h : (m.update dt score env).activePowerUp = some a') :
    0 < a'.timeLeft ∧ ∀ a, m.activePowerUp = some a → a'.timeLeft = a.timeLeft - dt := by
  rw [update_activePowerUp] at h
  cases hm : m.activePowerUp with
  | none => rw [hm] at h; exact absurd h (by simp [tickActive])
  | some a =>
      rw [hm] at h
      simp only [tickActive] at h
      split at h
      · exact absurd h (by simp)
      · rename_i hgt
        cases h
        exact ⟨not_le.mp hgt, fun a2 ha2 => by cases ha2; rfl⟩

theorem foldSteps_activePowerUp_none (steps : List (ℚ × ℚ × Env)) :
    ∀ m : PowerUpManager, m.activePowerUp = none →
      (steps.foldl (fun acc s => acc.update s.1 s.2.1 s.2.2) m).activePowerUp = none := by
  induction steps with
  | nil => intro m h; exact h
  | cons s rest ih => intro m h; exact ih _ (update_activePowerUp_none _ _ _ _ h)

theorem foldSteps_timeLeft_bound (steps : List (ℚ × ℚ × Env)) :
    ∀ (m : PowerUpManager) (b : ℚ),
      (∀ a, m.activePowerUp = some a → a.timeLeft ≤ b) →
      ∀ a', (steps.foldl (fun acc s => acc.update s.1 s.2.1 s.2.2) m).activePowerUp =
          some a' →
        a'.timeLeft ≤ b - (steps.map (fun s => s.1)).sum := by
  induction steps with
  | nil => intro m b hb a' h; simpa using hb a' h
  | cons s rest ih =>
      intro m b hb a' h
      simp only [List.foldl_cons] at h
      have hstep : ∀ a2, (m.update s.1 s.2.1 s.2.2).activePowerUp = some a2 →
          a2.timeLeft ≤ b - s.1 := by
        intro a2 h2
        obtain ⟨_, heq⟩ := update_activePowerUp_pos _ _ _ _ _ h2
        cases hm : m.activePowerUp with
        | none => exact absurd h2 (by rw [update_activePowerUp_none _ _ _ _ hm]; simp)
        | some a =>
            rw [heq a hm]
            have := hb a hm
            linarith
      have hres := ih (m.update s.1 s.2.1 s.2.2) (b - s.1) hstep a' h
      simp only [List.map_cons, List.sum_cons]
      linarith

theorem foldSteps_active_pos :
    ∀ (steps : List (ℚ × ℚ × Env)), steps ≠ [] →
      ∀ (m : PowerUpManager) (a' : ActivePowerUp),
        (steps.foldl (fun acc s => acc.update s.1 s.2.1 s.2.2) m).activePowerUp =
          some a' → 0 < a'.timeLeft := by
  intro steps
  induction steps with
  | nil => intro h; exact absurd rfl h
  | cons s rest ih =>
      intro _ m a' h
      cases hr : rest with
      | nil =>
          subst hr
          simp only [List.foldl_cons, List.foldl_nil] at h
          exact (update_activePowerUp_pos _ _ _ _ _ h).1
      | cons r rest' =>
          simp only [List.foldl_cons] at h
          exact ih (by simp [hr]) _ a' (by rw [hr] at h ⊢; simpa using h)

/-- C2: a power-up-pool collision deactivates the picked-up entity and
installs `ActivePowerUpState{kind, timeLeft = duration kind}`, overwriting
any prior active state (the conclusion holds for every prior slot value);
durations are SHIELD 5 s, DOUBLE 8 s, SHATTER 6 s; every fixed step the
active slot's `timeLeft` decreases by `dt` and the slot is cleared once
`timeLeft <= 0`; in particular a fresh SHIELD followed by any sequence of
non-negative steps totalling at least 5.01 s leaves the slot absent. -/
theorem powerup_lifecycle :
    (PUType.duration PUType.SHIELD = 5 ∧ PUType.duration PUType.DOUBLE = 8 ∧
     PUType.duration PUType.SHATTER = 6) ∧
    (∀ (m : PowerUpManager) (box : Box3) (pk : Pickup),
      (m.checkCollision box).2 = some pk →
      (m.checkCollision box).1.activePowerUp =
        some ⟨pk.type, pk.type.duration, pk.type.label, pk.type.color⟩ ∧
      ((m.checkCollision box).1.pool.countP (fun pu => pu.active)) + 1 =
        m.pool.countP (fun pu => pu.active)) ∧
    (∀ (m : PowerUpManager) (dt score : ℚ) (env : Env),
      (m.update dt score env).activePowerUp = tickActive m.activePowerUp dt) ∧
    (∀ (steps : List (ℚ × ℚ × Env)) (m : PowerUpManager) (a : ActivePowerUp),
      m.activePowerUp = some a → a.type = PUType.SHIELD → a.timeLeft = 5 →
      (∀ s ∈ steps, 0 ≤ s.1) → 501/100 ≤ (steps.map (fun s => s.1)).sum →
      (steps.foldl (fun acc s => acc.update s.1 s.2.1 s.2.2) m).activePowerUp = none) := by
  refine ⟨⟨rfl, rfl, rfl⟩, ?_, update_activePowerUp, ?_⟩
  · intro m box pk hpk
    have h1 := checkCollision_some_installs m box pk hpk
    have hscan2 : (puScan box m.pool).2 = some pk := by
      unfold PowerUpManager.checkCollision at hpk
      cases hscan : puScan box m.pool with
      | mk pool' res =>
          rw [hscan] at hpk
          cases res with
          | none => simp at hpk
          | some pk2 => simp at hpk; simp [hpk]
    refine ⟨h1.1, ?_⟩
    rw [h1.2.1]
    exact puScan_countP box m.pool pk hscan2
  · intro steps m a hm hty htl hpos hsum
    cases hres : (steps.foldl (fun acc s => acc.update s.1 s.2.1 s.2.2) m).activePowerUp with
    | none => rfl
    | some a' =>
        have hne : steps ≠ [] := by
          intro he
          subst he
          simp at hsum
          linarith
        have h1 := foldSteps_timeLeft_bound steps m 5
          (fun x hx => by rw [hm] at hx; cases hx; linarith [htl.ge, htl.le]) a' hres
        have h2 := foldSteps_active_pos steps hne m a' hres
        linarith

set_option maxRecDepth 100000 in
set_option maxHeartbeats 1000000 in
/-- Witness for C2: a concrete pickup that overwrites an active DOUBLE with
a fresh SHIELD of `timeLeft = 5`, and a concrete 5.01 s step sequence after
which the slot is absent. -/
theorem powerup_lifecycle_witness :
    ((mPk.checkCollision boxW).2 = some pkShield ∧
     (mPk.checkCollision boxW).1.activePowerUp =
       some ⟨pkShield.type, pkShield.type.duration, pkShield.type.label,
         pkShield.type.color⟩ ∧
     ((mPk.checkCollision boxW).1.pool.countP (fun pu => pu.active)) + 1 =
       mPk.pool.countP (fun pu => pu.active)) ∧
    (mSh.activePowerUp =
       some ⟨PUType.SHIELD, 5, PUType.SHIELD.label, PUType.SHIELD.color⟩ ∧
     (∀ s ∈ stepsW, 0 ≤ s.1) ∧
     501/100 ≤ (stepsW.map (fun s => s.1)).sum ∧
     (stepsW.foldl (fun acc s => acc.update s.1 s.2.1 s.2.2) mSh).activePowerUp = none) :=
  ⟨⟨by with_unfolding_all rfl,
    powerup_lifecycle.2.1 mPk boxW pkShield (by with_unfolding_all rfl)⟩,
   ⟨rfl, by norm_num [stepsW], by norm_num [stepsW],
    powerup_lifecycle.2.2.2 stepsW mSh
      ⟨PUType.SHIELD, 5, PUType.SHIELD.label, PUType.SHIELD.color⟩ rfl rfl rfl
      (by norm_num [stepsW]) (by norm_num [stepsW])⟩⟩

theorem spawnObstacle_pool_length (m : ObstacleManager) (speed : ℚ) (fe : Bool)
    (d : ObSpawnDraw) : (m.spawnObstacle speed fe d).pool.length = m.pool.length := by
  unfold ObstacleManager.spawnObstacle
  dsimp only
  exact obActivateFirst_length _ _

theorem obUpdate_pool_length (m : ObstacleManager) (dt score : ℚ) (env : Env) :
    (m.update dt score env).pool.length = m.pool.length := by
  unfold ObstacleManager.update
  dsimp only
  split_ifs <;> simp [spawnObstacle_pool_length]

theorem puUpdate_pool_length (m : PowerUpManager) (dt score : ℚ) (env : Env) :
    (m.update dt score env).pool.length = m.pool.length := by
  unfold PowerUpManager.update
  dsimp only
  split_ifs <;> cases h : m.activePowerUp <;>
    simp [h, puActivateFirst_length] <;> split_ifs <;>
    simp [puActivateFirst_length]

theorem checkCollision_fst_pool_length (m : PowerUpManager) (box : Box3) :
    ((m.checkCollision box).1).pool.length = m.pool.length := by
  have hlen := puScan_fst_length box m.pool
  unfold PowerUpManager.checkCollision
  cases hscan : puScan box m.pool with
  | mk pool' res =>
      rw [hscan] at hlen
      cases res <;> simpa using hlen

theorem spawnShatter_length (draw : ℕ → ShatterDraw) (pos : V3) (color count : ℕ)
    (pool : List Particle) : (spawnShatter draw pos color count pool).length = pool.length := by
  unfold spawnShatter
  exact spawnLoop_length _ _ _ _

theorem spawnExplosion_length (draw : ℕ → ExplosionDraw) (pos : V3) (count : ℕ)
    (pool : List Particle) : (spawnExplosion draw pos count pool).length = pool.length := by
  unfold spawnExplosion
  exact spawnLoop_length _ _ _ _

theorem spawnPickup_length (draw : ℕ → PickupDraw) (pos : V3) (color count : ℕ)
    (pool : List Particle) : (spawnPickup draw pos color count pool).length = pool.length := by
  unfold spawnPickup
  exact spawnLoop_length _ _ _ _

theorem tickPhase1_pool_lengths (g : Game) (dt : ℚ) (inp : InputActions) (jr : Bool)
    (env : Env) :
    (g.tickPhase1 dt inp jr env).obstacles.pool.length = g.obstacles.pool.length ∧
    (g.tickPhase1 dt inp jr env).powerups.pool.length = g.powerups.pool.length ∧
    (g.tickPhase1 dt inp jr env).particles.length = g.particles.length := by
  unfold Game.tickPhase1
  dsimp only
  exact ⟨obUpdate_pool_length _ _ _ _, puUpdate_pool_length _ _ _ _, by
    simp [particlesUpdate]⟩

theorem pickupPhase_pool_lengths (g : Game) (env : Env) :
    (g.pickupPhase env).obstacles.pool.length = g.obstacles.pool.length ∧
    (g.pickupPhase env).powerups.pool.length = g.powerups.pool.length ∧
    (g.pickupPhase env).particles.length = g.particles.length := by
  have hlen := checkCollision_fst_pool_length g.powerups g.player.boundingBox
  unfold Game.pickupPhase
  cases hc : g.powerups.checkCollision g.player.boundingBox with
  | mk pw res =>
      rw [hc] at hlen
      cases res with
      | none => exact ⟨rfl, by simpa using hlen, rfl⟩
      | some pk => exact ⟨rfl, by simpa using hlen, by simp [spawnPickup_length]⟩

theorem resolveObstacle_pool_lengths (g : Game) (env : Env) :
    (g.resolveObstacle env).obstacles.pool.length = g.obstacles.pool.length ∧
    (g.resolveObstacle env).powerups.pool.length = g.powerups.pool.length ∧
    (g.resolveObstacle env).particles.length = g.particles.length := by
  unfold Game.resolveObstacle
  cases hhit : g.obstacles.checkCollision g.player.boundingBox with
  | none => exact ⟨rfl, rfl, rfl⟩
  | some hit =>
      split_ifs <;>
        simp [ObstacleManager.destroyObstacle, obDeactivateAt_length,
          spawnShatter_length, spawnExplosion_length]
      all_goals split_ifs <;> simp [spawnExplosion_length]

theorem update_pool_lengths (g : Game) (dt : ℚ) (inp : InputActions) (jr : Bool)
    (env : Env) :
    (g.update dt inp jr env).obstacles.pool.length = g.obstacles.pool.length ∧
    (g.update dt inp jr env).powerups.pool.length = g.powerups.pool.length ∧
    (g.update dt inp jr env).particles.length = g.particles.length := by
  unfold Game.update
  split_ifs
  · exact ⟨rfl, rfl, rfl⟩
  · have h1 := tickPhase1_pool_lengths g dt inp jr env
    have h2 := pickupPhase_pool_lengths (g.tickPhase1 dt inp jr env) env
    have h3 := resolveObstacle_pool_lengths
      ((g.tickPhase1 dt inp jr env).pickupPhase env) env
    exact ⟨by rw [h3.1, h2.1, h1.1], by rw [h3.2.1, h2.2.1, h1.2.1],
      by rw [h3.2.2, h2.2.2, h1.2.2]⟩

theorem fold_pool_lengths (steps : List (ℚ × InputActions × Bool × Env)) :
    ∀ g : Game,
      (steps.foldl (fun a s => a.update s.1 s.2.1 s.2.2.1 s.2.2.2) g).obstacles.pool.length =
        g.obstacles.pool.length ∧
      (steps.foldl (fun a s => a.update s.1 s.2.1 s.2.2.1 s.2.2.2) g).powerups.pool.length =
        g.powerups.pool.length ∧
      (steps.foldl (fun a s => a.update s.1 s.2.1 s.2.2.1 s.2.2.2) g).particles.length =
        g.particles.length := by
  induction steps with
  | nil => intro g; exact ⟨rfl, rfl, rfl⟩
  | cons s rest ih =>
      intro g
      have h1 := update_pool_lengths g s.1 s.2.1 s.2.2.1 s.2.2.2
      have h2 := ih (g.update s.1 s.2.1 s.2.2.1 s.2.2.2)
      simp only [List.foldl_cons]
      exact ⟨h2.1.trans h1.1, h2.2.1.trans h1.2.1, h2.2.2.trans h1.2.2⟩

theorem obActivateFirst_full (f : Obstacle → Obstacle) :
    ∀ pool : List Obstacle, (∀ o ∈ pool, o.active = true) →
      obActivateFirst f pool = pool := by
  intro pool
  induction pool with
  | nil => intro _; rfl
  | cons o rest ih =>
      intro h
      simp only [obActivateFirst]
      rw [if_neg (by simp [h o (by simp)]), ih (fun x hx => h x (by simp [hx]))]

theorem puActivateFirst_full (f : PowerUp → PowerUp) :
    ∀ pool : List PowerUp, (∀ pu ∈ pool, pu.active = true) →
      puActivateFirst f pool = pool := by
  intro pool
  induction pool with
  | nil => intro _; rfl
  | cons pu rest ih =>
      intro h
      simp only [puActivateFirst]
      rw [if_neg (by simp [h pu (by simp)]), ih (fun x hx => h x (by simp [hx]))]

theorem pActivateFirst_full (f : Particle → Particle) :
    ∀ pool : List Particle, (∀ p ∈ pool, p.active = true) →
      pActivateFirst f pool = none := by
  intro pool
  induction pool with
  | nil => intro _; rfl
  | cons p rest ih =>
      intro h
      simp only [pActivateFirst]
      rw [if_neg (by simp [h p (by simp)]), ih (fun x hx => h x (by simp [hx]))]
      rfl

/-- C4: for every pool and any sequence of ticks, the number of active
entities never exceeds the pool's fixed capacity (the slot count chosen at
construction); acquiring from a fully active pool returns none; and a
spawn or burst request against an exhausted pool is silently dropped,
leaving every existing entity unchanged. -/
theorem pool_capacity_invariant :
    (∀ (g : Game) (steps : List (ℚ × InputActions × Bool × Env)),
      (steps.foldl (fun a s => a.update s.1 s.2.1 s.2.2.1 s.2.2.2) g).obstacles.pool.countP
          (fun o => o.active) ≤ g.obstacles.pool.length ∧
      (steps.foldl (fun a s => a.update s.1 s.2.1 s.2.2.1 s.2.2.2) g).powerups.pool.countP
          (fun pu => pu.active) ≤ g.powerups.pool.length ∧
      (steps.foldl (fun a s => a.update s.1 s.2.1 s.2.2.1 s.2.2.2) g).particles.countP
          (fun p => p.active) ≤ g.particles.length) ∧
    (∀ m : ObstacleManager, (∀ o ∈ m.pool, o.active = true) →
      m.getInactive = none ∧
      ∀ (speed : ℚ) (fe : Bool) (d : ObSpawnDraw), m.spawnObstacle speed fe d = m) ∧
    (∀ m : PowerUpManager, (∀ pu ∈ m.pool, pu.active = true) →
      m.getInactive = none ∧
      ∀ f : PowerUp → PowerUp, puActivateFirst f m.pool = m.pool) ∧
    (∀ pool : List Particle, (∀ p ∈ pool, p.active = true) →
      pGetInactive pool = none ∧
      (∀ (draw : ℕ → ShatterDraw) (pos : V3) (color count : ℕ),
        spawnShatter draw pos color count pool = pool) ∧
      (∀ (draw : ℕ → ExplosionDraw) (pos : V3) (count : ℕ),
        spawnExplosion draw pos count pool = pool) ∧
      (∀ (draw : ℕ → PickupDraw) (pos : V3) (color count : ℕ),
        spawnPickup draw pos color count pool = pool)) := by
  have hspawnLoop : ∀ (mk : ℕ → Particle → Particle) (n i : ℕ) (pool : List Particle),
      (∀ p ∈ pool, p.active = true) → spawnLoop mk n i pool = pool := by
    intro mk n i pool h
    cases n with
    | zero => rfl
    | succ n => simp only [spawnLoop]; rw [pActivateFirst_full _ pool h]
  refine ⟨?_, ?_, ?_, ?_⟩
  · intro g steps
    have h := fold_pool_lengths steps g
    exact ⟨h.1 ▸ List.countP_le_length _, h.2.1 ▸ List.countP_le_length _,
      h.2.2 ▸ List.countP_le_length _⟩
  · intro m h
    refine ⟨?_, ?_⟩
    · unfold ObstacleManager.getInactive
      rw [List.find?_eq_none]
      intro o ho
      simp [h o ho]
    · intro speed fe d
      unfold ObstacleManager.spawnObstacle
      dsimp only
      rw [obActivateFirst_full _ m.pool h]
  · intro m h
    refine ⟨?_, fun f => puActivateFirst_full f m.pool h⟩
    unfold PowerUpManager.getInactive
    rw [List.find?_eq_none]
    intro pu hpu
    simp [h pu hpu]
  · intro pool h
    refine ⟨?_, fun draw pos color count => hspawnLoop _ count 0 pool h,
      fun draw pos count => hspawnLoop _ count 0 pool h,
      fun draw pos color count => hspawnLoop _ count 0 pool h⟩
    unfold pGetInactive
    rw [List.find?_eq_none]
    intro p hp
    simp [h p hp]

/-- Witness for C4: concrete exhausted pools where acquisition returns none
and spawn/burst requests are dropped, plus a concrete two-tick fold that
respects capacities. -/
theorem pool_capacity_invariant_witness :
    ((stepsC4.foldl (fun a s => a.update s.1 s.2.1 s.2.2.1 s.2.2.2) gC4).obstacles.pool.countP
        (fun o => o.active) ≤ gC4.obstacles.pool.length ∧
     (stepsC4.foldl (fun a s => a.update s.1 s.2.1 s.2.2.1 s.2.2.2) gC4).powerups.pool.countP
        (fun pu => pu.active) ≤ gC4.powerups.pool.length ∧
     (stepsC4.foldl (fun a s => a.update s.1 s.2.1 s.2.2.1 s.2.2.2) gC4).particles.countP
        (fun p => p.active) ≤ gC4.particles.length) ∧
    ((∀ o ∈ obFullM.pool, o.active = true) ∧ obFullM.getInactive = none ∧
      obFullM.spawnObstacle 15 false default = obFullM) ∧
    ((∀ pu ∈ puFullM.pool, pu.active = true) ∧ puFullM.getInactive = none) ∧
    ((∀ p ∈ partFull, p.active = true) ∧ pGetInactive partFull = none ∧
      spawnShatter (fun _ => default) ⟨0, 0, 0⟩ 0 25 partFull = partFull) :=
  ⟨pool_capacity_invariant.1 gC4 stepsC4,
   ⟨by intro o ho; simp only [obFullM, List.mem_singleton] at ho; subst ho; rfl,
    (pool_capacity_invariant.2.1 obFullM
      (by intro o ho; simp only [obFullM, List.mem_singleton] at ho; subst ho; rfl)).1,
    (pool_capacity_invariant.2.1 obFullM
      (by intro o ho; simp only [obFullM, List.mem_singleton] at ho; subst ho; rfl)).2 15 false default⟩,
   ⟨by intro pu hpu; simp only [puFullM, List.mem_singleton] at hpu; subst hpu; rfl,
    (pool_capacity_invariant.2.2.1 puFullM
      (by intro pu hpu; simp only [puFullM, List.mem_singleton] at hpu; subst hpu; rfl)).1⟩,
   ⟨by intro p hp; simp only [partFull, List.mem_singleton] at hp; subst hp; rfl,
    (pool_capacity_invariant.2.2.2 partFull
      (by intro p hp; simp only [partFull, List.mem_singleton] at hp; subst hp; rfl)).1,
    (pool_capacity_invariant.2.2.2 partFull
      (by intro p hp; simp only [partFull, List.mem_singleton] at hp; subst hp; rfl)).2.1
      (fun _ => default) ⟨0, 0, 0⟩ 0 25⟩⟩

theorem scoreStep_fire (score lm : ℕ) (timer dt : ℚ) (double : Bool)
    (h : timer + dt ≥ 1/10) :
    (scoreStep score timer lm dt double).score = score + (if double then 2 else 1) ∧
    (scoreStep score timer lm dt double).scoreTimer = 0 := by
  unfold scoreStep
  rw [if_pos h]
  dsimp only
  split_ifs <;> exact ⟨rfl, rfl⟩

theorem scoreStep_hold (score lm : ℕ) (timer dt : ℚ) (double : Bool)
    (h : timer + dt < 1/10) :
    (scoreStep score timer lm dt double).score = score ∧
    (scoreStep score timer lm dt double).scoreTimer = timer + dt := by
  unfold scoreStep
  rw [if_neg (not_le.mpr h)]
  exact ⟨rfl, rfl⟩

theorem scoreStep_score_ge (score lm : ℕ) (timer dt : ℚ) (double : Bool) :
    score ≤ (scoreStep score timer lm dt double).score := by
  unfold scoreStep
  dsimp only
  split_ifs <;> simp

theorem tickPhase1_score_ge (g : Game) (dt : ℚ) (inp : InputActions) (jr : Bool)
    (env : Env) : g.score ≤ (g.tickPhase1 dt inp jr env).score := by
  unfold Game.tickPhase1
  dsimp only
  exact scoreStep_score_ge _ _ _ _ _

theorem pickupPhase_score (g : Game) (env : Env) :
    (g.pickupPhase env).score = g.score := by
  unfold Game.pickupPhase
  cases hc : g.powerups.checkCollision g.player.boundingBox with
  | mk pw res => cases res <;> rfl

theorem resolveObstacle_score_ge (g : Game) (env : Env) :
    g.score ≤ (g.resolveObstacle env).score := by
  unfold Game.resolveObstacle
  cases hhit : g.obstacles.checkCollision g.player.boundingBox with
  | none => exact le_rfl
  | some hit => split_ifs <;> simp

theorem update_score_ge (g : Game) (dt : ℚ) (inp : InputActions) (jr : Bool)
    (env : Env) : g.score ≤ (g.update dt inp jr env).score := by
  unfold Game.update
  split_ifs
  · exact le_rfl
  · calc g.score ≤ (g.tickPhase1 dt inp jr env).score := tickPhase1_score_ge g dt inp jr env
      _ = ((g.tickPhase1 dt inp jr env).pickupPhase env).score :=
        (pickupPhase_score _ env).symm
      _ ≤ _ := resolveObstacle_score_ge _ env

/-- C5: the score-increment block adds exactly 1 point per elapsed 0.1 s of
PLAYING time, or exactly 2 while DOUBLE is active, and nothing between
firings: with the fixed 1/60 s step and a fresh timer, the first five ticks
leave the score unchanged and the sixth (exactly 0.1 s) adds the points;
moreover a full `Game._update` tick never decreases the score. -/
theorem periodic_scoring :
    (∀ (score lm : ℕ) (timer dt : ℚ) (double : Bool),
      (timer + dt ≥ 1/10 →
        (scoreStep score timer lm dt double).score = score + (if double then 2 else 1) ∧
        (scoreStep score timer lm dt double).scoreTimer = 0) ∧
      (timer + dt < 1/10 →
        (scoreStep score timer lm dt double).score = score ∧
        (scoreStep score timer lm dt double).scoreTimer = timer + dt)) ∧
    (∀ (score lm : ℕ) (double : Bool),
      ((scoreIter double)^[1] ⟨score, 0, lm, false⟩).score = score ∧
      ((scoreIter double)^[2] ⟨score, 0, lm, false⟩).score = score ∧
      ((scoreIter double)^[3] ⟨score, 0, lm, false⟩).score = score ∧
      ((scoreIter double)^[4] ⟨score, 0, lm, false⟩).score = score ∧
      ((scoreIter double)^[5] ⟨score, 0, lm, false⟩).score = score ∧
      ((scoreIter double)^[6] ⟨score, 0, lm, false⟩).score =
        score + (if double then 2 else 1) ∧
      ((scoreIter double)^[6] ⟨score, 0, lm, false⟩).scoreTimer = 0) ∧
    (∀ (g : Game) (dt : ℚ) (inp : InputActions) (jr : Bool) (env : Env),
      g.score ≤ (g.update dt inp jr env).score) := by
  refine ⟨fun score lm timer dt double =>
    ⟨scoreStep_fire score lm timer dt double, scoreStep_hold score lm timer dt double⟩,
    ?_, update_score_ge⟩
  intro score lm double
  have e1 : scoreIter double ⟨score, 0, lm, false⟩ = ⟨score, 1/60, lm, false⟩ := by
    norm_num [scoreIter, scoreStep, fixedTimeStep]
  have e2 : scoreIter double ⟨score, 1/60, lm, false⟩ = ⟨score, 1/30, lm, false⟩ := by
    norm_num [scoreIter, scoreStep, fixedTimeStep]
  have e3 : scoreIter double ⟨score, 1/30, lm, false⟩ = ⟨score, 1/20, lm, false⟩ := by
    norm_num [scoreIter, scoreStep, fixedTimeStep]
  have e4 : scoreIter double ⟨score, 1/20, lm, false⟩ = ⟨score, 1/15, lm, false⟩ := by
    norm_num [scoreIter, scoreStep, fixedTimeStep]
  have e5 : scoreIter double ⟨score, 1/15, lm, false⟩ = ⟨score, 1/12, lm, false⟩ := by
    norm_num [scoreIter, scoreStep, fixedTimeStep]
  have e6 := scoreStep_fire score lm (1/12) fixedTimeStep double
    (by norm_num [fixedTimeStep])
  have i2 : (scoreIter double)^[2] (⟨score, 0, lm, false⟩ : ScoreResult) =
      scoreIter double ((scoreIter double)^[1] ⟨score, 0, lm, false⟩) := rfl
  have i3 : (scoreIter double)^[3] (⟨score, 0, lm, false⟩ : ScoreResult) =
      scoreIter double ((scoreIter double)^[2] ⟨score, 0, lm, false⟩) := rfl
  have i4 : (scoreIter double)^[4] (⟨score, 0, lm, false⟩ : ScoreResult) =
      scoreIter double ((scoreIter double)^[3] ⟨score, 0, lm, false⟩) := rfl
  have i5 : (scoreIter double)^[5] (⟨score, 0, lm, false⟩ : ScoreResult) =
      scoreIter double ((scoreIter double)^[4] ⟨score, 0, lm, false⟩) := rfl
  have i6 : (scoreIter double)^[6] (⟨score, 0, lm, false⟩ : ScoreResult) =
      scoreIter double ((scoreIter double)^[5] ⟨score, 0, lm, false⟩) := rfl
  have i1 : (scoreIter double)^[1] (⟨score, 0, lm, false⟩ : ScoreResult) =
      scoreIter double ⟨score, 0, lm, false⟩ := rfl
  have j1 := i1.trans e1
  have j2 := i2.trans (by rw [j1, e2])
  have j3 := i3.trans (by rw [j2, e3])
  have j4 := i4.trans (by rw [j3, e4])
  have j5 := i5.trans (by rw [j4, e5])
  refine ⟨by rw [j1], by rw [j2], by rw [j3], by rw [j4], by rw [j5], ?_, ?_⟩
  · rw [i6, j5]
    exact e6.1
  · rw [i6, j5]
    exact e6.2

/-- Witness for C5: a firing tick (timer 0.09 + dt 1/60 crosses 0.1) and a
holding tick, at concrete values. -/
theorem periodic_scoring_witness :
    ((9/100 : ℚ) + 1/60 ≥ 1/10 ∧
     (scoreStep 7 (9/100) 0 (1/60) false).score = 7 + (if false then 2 else 1) ∧
     (scoreStep 7 (9/100) 0 (1/60) false).scoreTimer = 0) ∧
    ((0 : ℚ) + 1/60 < 1/10 ∧
     (scoreStep 7 0 0 (1/60) true).score = 7 ∧
     (scoreStep 7 0 0 (1/60) true).scoreTimer = 0 + 1/60) :=
  ⟨⟨by norm_num,
    ((periodic_scoring.1 7 0 (9/100) (1/60) false).1 (by norm_num)).1,
    ((periodic_scoring.1 7 0 (9/100) (1/60) false).1 (by norm_num)).2⟩,
   ⟨by norm_num,
    ((periodic_scoring.1 7 0 0 (1/60) true).2 (by norm_num)).1,
    ((periodic_scoring.1 7 0 0 (1/60) true).2 (by norm_num)).2⟩⟩

theorem scoreStep_fired_iff_lt (score lm : ℕ) (timer dt : ℚ) (double : Bool) :
    (scoreStep score timer lm dt double).milestoneFired = true ↔
      lm < (scoreStep score timer lm dt double).lastMilestone := by
  unfold scoreStep
  dsimp only
  split_ifs <;> simp_all

theorem scoreStep_lm_ge (score lm : ℕ) (timer dt : ℚ) (double : Bool) :
    lm ≤ (scoreStep score timer lm dt double).lastMilestone := by
  unfold scoreStep
  dsimp only
  split_ifs <;> simp <;> omega

theorem tickPhase1_milestone (g : Game) (dt : ℚ) (inp : InputActions) (jr : Bool)
    (env : Env) :
    (g.tickPhase1 dt inp jr env).lastMilestone =
      (scoreStep g.score g.scoreTimer g.lastMilestone dt
        ((g.powerups.update dt (g.score : ℚ) env).hasDouble)).lastMilestone ∧
    (g.tickPhase1 dt inp jr env).events.count GEvent.milestone =
      g.events.count GEvent.milestone +
        (if (scoreStep g.score g.scoreTimer g.lastMilestone dt
            ((g.powerups.update dt (g.score : ℚ) env).hasDouble)).milestoneFired
          then 1 else 0) := by
  unfold Game.tickPhase1
  dsimp only
  refine ⟨rfl, ?_⟩
  split_ifs <;> simp [List.count_append]

theorem pickupPhase_milestone (g : Game) (env : Env) :
    (g.pickupPhase env).lastMilestone = g.lastMilestone ∧
    (g.pickupPhase env).events.count GEvent.milestone =
      g.events.count GEvent.milestone := by
  unfold Game.pickupPhase
  cases hc : g.powerups.checkCollision g.player.boundingBox with
  | mk pw res => cases res <;> simp [List.count_append]

theorem resolveObstacle_milestone (g : Game) (env : Env) :
    (g.resolveObstacle env).lastMilestone = g.lastMilestone ∧
    (g.resolveObstacle env).events.count GEvent.milestone =
      g.events.count GEvent.milestone := by
  unfold Game.resolveObstacle
  cases hhit : g.obstacles.checkCollision g.player.boundingBox with
  | none => exact ⟨rfl, rfl⟩
  | some hit =>
      dsimp only
      split_ifs <;> simp [List.count_append]

theorem update_milestone (g : Game) (dt : ℚ) (inp : InputActions) (jr : Bool)
    (env : Env) :
    g.lastMilestone ≤ (g.update dt inp jr env).lastMilestone ∧
    (g.update dt inp jr env).events.count GEvent.milestone =
      g.events.count GEvent.milestone +
        (if g.lastMilestone < (g.update dt inp jr env).lastMilestone then 1 else 0) := by
  by_cases hs : g.state = GState.PLAYING
  · have hupd : g.update dt inp jr env =
        ((g.tickPhase1 dt inp jr env).pickupPhase env).resolveObstacle env := by
      unfold Game.update
      rw [if_neg (by simp [hs])]
    have t1 := tickPhase1_milestone g dt inp jr env
    have t2 := pickupPhase_milestone (g.tickPhase1 dt inp jr env) env
    have t3 := resolveObstacle_milestone ((g.tickPhase1 dt inp jr env).pickupPhase env) env
    rw [hupd]
    constructor
    · rw [t3.1, t2.1, t1.1]
      exact scoreStep_lm_ge _ _ _ _ _
    · rw [t3.2, t2.2, t1.2, t3.1, t2.1, t1.1]
      congr 1
      exact if_congr (scoreStep_fired_iff_lt _ _ _ _ _) rfl rfl
  · have hupd : g.update dt inp jr env = g := by
      unfold Game.update
      rw [if_pos hs]
    rw [hupd]
    exact ⟨le_rfl, by simp⟩

/-- C6 (amended): the milestone check runs only inside the periodic score
increment: it fires exactly when that increment makes `⌊score/50⌋` exceed
the last-milestone index, emitting one event and jumping the index to
`⌊score/50⌋` (monotonically increasing, so no boundary ever fires twice and
several boundaries crossed at once compress into a single event); a full
tick emits a milestone event exactly when its last-milestone index strictly
increases — in particular a crossing caused by the SHATTER +5 bonus emits
nothing at the crossing itself. -/
theorem milestone_firing_amended :
    (∀ (score lm : ℕ) (timer dt : ℚ) (double : Bool),
      ((scoreStep score timer lm dt double).milestoneFired = true ↔
        (timer + dt ≥ 1/10 ∧
          lm < (score + (if double then 2 else 1)) / 50)) ∧
      ((scoreStep score timer lm dt double).milestoneFired = true →
        (scoreStep score timer lm dt double).lastMilestone =
          (score + (if double then 2 else 1)) / 50) ∧
      ((scoreStep score timer lm dt double).milestoneFired = false →
        (scoreStep score timer lm dt double).lastMilestone = lm) ∧
      lm ≤ (scoreStep score timer lm dt double).lastMilestone) ∧
    (∀ (g : Game) (dt : ℚ) (inp : InputActions) (jr : Bool) (env : Env),
      g.lastMilestone ≤ (g.update dt inp jr env).lastMilestone ∧
      (g.update dt inp jr env).events.count GEvent.milestone =
        g.events.count GEvent.milestone +
          (if g.lastMilestone < (g.update dt inp jr env).lastMilestone then 1 else 0)) := by
  refine ⟨?_, update_milestone⟩
  intro score lm timer dt double
  refine ⟨?_, ?_, ?_, scoreStep_lm_ge score lm timer dt double⟩
  · unfold scoreStep
    dsimp only
    split_ifs <;> simp_all
  · intro hf
    unfold scoreStep at hf ⊢
    dsimp only at hf ⊢
    split_ifs at hf ⊢ <;> simp_all
  · intro hf
    unfold scoreStep at hf ⊢
    dsimp only at hf ⊢
    split_ifs at hf ⊢ <;> simp_all

/-- Witness for C6 (amended): a firing increment at score 49 crossing 50,
and a non-firing increment at score 7. -/
theorem milestone_firing_amended_witness :
    (scoreStep 49 (9/100) 0 (1/60) false).milestoneFired = true ∧
    (scoreStep 49 (9/100) 0 (1/60) false).lastMilestone =
      (49 + (if false then 2 else 1)) / 50 ∧
    (scoreStep 7 (9/100) 0 (1/60) false).milestoneFired = false ∧
    (scoreStep 7 (9/100) 0 (1/60) false).lastMilestone = 0 := by
  have hf : (scoreStep 49 (9/100) 0 (1/60) false).milestoneFired = true := by
    norm_num [scoreStep]
  have hnf : (scoreStep 7 (9/100) 0 (1/60) false).milestoneFired = false := by
    norm_num [scoreStep]
  exact ⟨hf, (milestone_firing_amended.1 49 0 (9/100) (1/60) false).2.1 hf,
    hnf, (milestone_firing_amended.1 7 0 (9/100) (1/60) false).2.2.1 hnf⟩

set_option maxRecDepth 100000 in
set_option maxHeartbeats 2000000 in
/-- Counterexample for C6 as stated: starting from score 48 with SHATTER
active (0.025 s left) and two obstacles on the player, the first tick's
SHATTER bonus carries the score from 48 to 53 — crossing the 50 boundary —
with no milestone event; the second tick is fatal (SHATTER expired), the
session ends at score 53 with `lastMilestone` still 0 and zero milestone
events ever emitted, and the GAME_OVER state is a fixpoint of the update,
so the crossed boundary never fires. -/
theorem milestone_crossing_never_fires_counterexample :
    gC6s.score = 48 ∧ gC6s.lastMilestone = 0 ∧ gC6s.events = [] ∧
    gC6s.state = GState.PLAYING ∧
    gC6a.score = 53 ∧ gC6a.state = GState.PLAYING ∧
    gC6a.events.count GEvent.milestone = 0 ∧
    gC6b.state = GState.GAME_OVER ∧ gC6b.score = 53 ∧
    gC6b.lastMilestone = 0 ∧
    gC6b.events.count GEvent.milestone = 0 ∧
    gC6b.update fixedTimeStep inp0 false env0 = gC6b := by
  have hst : gC6b.state = GState.GAME_OVER := by with_unfolding_all rfl
  refine ⟨rfl, rfl, rfl, rfl, by with_unfolding_all rfl, by with_unfolding_all rfl,
    by with_unfolding_all rfl, hst, by with_unfolding_all rfl,
    by with_unfolding_all rfl, by with_unfolding_all rfl, ?_⟩
  unfold Game.update
  rw [if_pos]
  rw [hst]
  intro h
  exact absurd h (by simp)

/-- C7: restarting (from GAME_OVER) yields a state that is PLAYING with
score 0, timers and milestone index cleared, every pool fully inactive and
no active power-up — the transition is a single atomic step of the
embedding, so whenever the phase is observed as PLAYING after the restart,
the resets have already happened. -/
theorem restart_resets :
    ∀ g : Game, g.state = GState.GAME_OVER →
      g.startGame.state = GState.PLAYING ∧
      g.startGame.score = 0 ∧
      g.startGame.scoreTimer = 0 ∧
      g.startGame.lastMilestone = 0 ∧
      (∀ o ∈ g.startGame.obstacles.pool, o.active = false) ∧
      (∀ pu ∈ g.startGame.powerups.pool, pu.active = false) ∧
      (∀ p ∈ g.startGame.particles, p.active = false) ∧
      g.startGame.powerups.activePowerUp = none ∧
      g.startGame.obstacles.spawnTimer = 0 ∧
      g.startGame.powerups.spawnTimer = 0 := by
  intro g _
  refine ⟨rfl, rfl, rfl, rfl, ?_, ?_, ?_, rfl, rfl, rfl⟩
  · intro o ho
    unfold Game.startGame ObstacleManager.reset at ho
    dsimp only at ho
    obtain ⟨x, _, rfl⟩ := List.mem_map.mp ho
    rfl
  · intro pu hpu
    unfold Game.startGame PowerUpManager.reset at hpu
    dsimp only at hpu
    obtain ⟨x, _, rfl⟩ := List.mem_map.mp hpu
    rfl
  · intro p hp
    unfold Game.startGame particlesReset at hp
    dsimp only at hp
    obtain ⟨x, _, rfl⟩ := List.mem_map.mp hp
    rfl

/-- Witness for C7: restarting a concrete GAME_OVER state with leftover
entities and an active DOUBLE. -/
theorem restart_resets_witness :
    gGO.state = GState.GAME_OVER ∧
    (gGO.startGame.state = GState.PLAYING ∧
     gGO.startGame.score = 0 ∧
     gGO.startGame.scoreTimer = 0 ∧
     gGO.startGame.lastMilestone = 0 ∧
     (∀ o ∈ gGO.startGame.obstacles.pool, o.active = false) ∧
     (∀ pu ∈ gGO.startGame.powerups.pool, pu.active = false) ∧
     (∀ p ∈ gGO.startGame.particles, p.active = false) ∧
     gGO.startGame.powerups.activePowerUp = none ∧
     gGO.startGame.obstacles.spawnTimer = 0 ∧
     gGO.startGame.powerups.spawnTimer = 0) :=
  ⟨rfl, restart_resets gGO rfl⟩

theorem drainSteps_step (acc : ℚ) (h : fixedTimeStep ≤ acc) :
    drainSteps acc = ((drainSteps (acc - fixedTimeStep)).1 + 1,
      (drainSteps (acc - fixedTimeStep)).2) := by
  rw [drainSteps, dif_pos h]

theorem drainSteps_stop (acc : ℚ) (h : ¬ fixedTimeStep ≤ acc) :
    drainSteps acc = (0, acc) := by
  rw [drainSteps, dif_neg h]

theorem drainSteps_spec :
    ∀ acc : ℚ, 0 ≤ acc →
      acc = ((drainSteps acc).1 : ℚ) * fixedTimeStep + (drainSteps acc).2 ∧
      0 ≤ (drainSteps acc).2 ∧ (drainSteps acc).2 < fixedTimeStep := by
  intro acc
  induction acc using drainSteps.induct with
  | case1 acc h ih =>
      intro _
      rw [drainSteps_step acc h]
      have hrec := ih (by unfold fixedTimeStep at h ⊢; linarith)
      push_cast
      refine ⟨?_, hrec.2.1, hrec.2.2⟩
      have := hrec.1
      push_cast at this
      linarith
  | case2 acc h =>
      intro h0
      rw [drainSteps_stop acc h]
      refine ⟨by simp, h0, not_le.mp h⟩

theorem drainLoop_step (g : Game) (acc : ℚ) (inp : InputActions) (jr : Bool)
    (envs : ℕ → Env) (h : fixedTimeStep ≤ acc) :
    g.drainLoop acc inp jr envs =
      (((g.update fixedTimeStep inp jr (envs 0)).drainLoop (acc - fixedTimeStep)
          inp false (fun n => envs (n + 1))).1,
       ((g.update fixedTimeStep inp jr (envs 0)).drainLoop (acc - fixedTimeStep)
          inp false (fun n => envs (n + 1))).2.1,
       ((g.update fixedTimeStep inp jr (envs 0)).drainLoop (acc - fixedTimeStep)
          inp false (fun n => envs (n + 1))).2.2 + 1) := by
  rw [Game.drainLoop, dif_pos h]

theorem drainLoop_stop (g : Game) (acc : ℚ) (inp : InputActions) (jr : Bool)
    (envs : ℕ → Env) (h : ¬ fixedTimeStep ≤ acc) :
    g.drainLoop acc inp jr envs = (g, acc, 0) := by
  rw [Game.drainLoop, dif_neg h]

theorem drainLoop_counts :
    ∀ (acc : ℚ) (g : Game) (inp : InputActions) (jr : Bool) (envs : ℕ → Env),
      (g.drainLoop acc inp jr envs).2.2 = (drainSteps acc).1 ∧
      (g.drainLoop acc inp jr envs).2.1 = (drainSteps acc).2 := by
  intro acc
  induction acc using drainSteps.induct with
  | case1 acc h ih =>
      intro g inp jr envs
      rw [drainLoop_step g acc inp jr envs h, drainSteps_step acc h]
      have hrec := ih (g.update fixedTimeStep inp jr (envs 0)) inp false
        (fun n => envs (n + 1))
      exact ⟨by simp [hrec.1], by simp [hrec.2]⟩
  | case2 acc h =>
      intro g inp jr envs
      rw [drainLoop_stop g acc inp jr envs h, drainSteps_stop acc h]
      exact ⟨rfl, rfl⟩

/-- C3 (amended): while PLAYING, each host frame clamps the raw delta to at
most 0.1 s before adding it to the accumulator, then drains one full
simulation tick per whole 1/60 s step contained in the accumulator, keeping
the sub-step remainder (non-negative and smaller than one step); for an
accumulated delta of 0.05 s — an exact multiple of 1/60 s — exactly 3 fixed
steps execute and the remainder left in the accumulator is 0. -/
theorem fixed_step_drain :
    (∀ raw : ℚ, min raw (1/10) ≤ 1/10 ∧ (raw ≤ 1/10 → min raw (1/10) = raw)) ∧
    (∀ (g : Game) (acc rawDt : ℚ) (inp : InputActions) (jr : Bool) (envs : ℕ → Env),
      g.state = GState.PLAYING →
      (g.animateFrame acc rawDt inp jr envs).2 =
        (drainSteps (acc + min rawDt (1/10))).2) ∧
    (∀ acc : ℚ, 0 ≤ acc →
      acc = ((drainSteps acc).1 : ℚ) * fixedTimeStep + (drainSteps acc).2 ∧
      0 ≤ (drainSteps acc).2 ∧ (drainSteps acc).2 < fixedTimeStep) ∧
    (∀ (acc : ℚ) (g : Game) (inp : InputActions) (jr : Bool) (envs : ℕ → Env),
      (g.drainLoop acc inp jr envs).2.2 = (drainSteps acc).1 ∧
      (g.drainLoop acc inp jr envs).2.1 = (drainSteps acc).2) ∧
    ((drainSteps (1/20)).1 = 3 ∧ (drainSteps (1/20)).2 = 0) := by
  have e0 : drainSteps (0 : ℚ) = (0, 0) :=
    drainSteps_stop 0 (by norm_num [fixedTimeStep])
  have e1 : drainSteps (1/60 : ℚ) = (1, 0) := by
    rw [drainSteps_step _ (by norm_num [fixedTimeStep]),
      show (1/60 - fixedTimeStep : ℚ) = 0 by norm_num [fixedTimeStep], e0]
  have e2 : drainSteps (1/30 : ℚ) = (2, 0) := by
    rw [drainSteps_step _ (by norm_num [fixedTimeStep]),
      show (1/30 - fixedTimeStep : ℚ) = 1/60 by norm_num [fixedTimeStep], e1]
  have e3 : drainSteps (1/20 : ℚ) = (3, 0) := by
    rw [drainSteps_step _ (by norm_num [fixedTimeStep]),
      show (1/20 - fixedTimeStep : ℚ) = 1/30 by norm_num [fixedTimeStep], e2]
  refine ⟨fun raw => ⟨min_le_right _ _, fun h => min_eq_left h⟩, ?_, drainSteps_spec,
    drainLoop_counts, by rw [e3], by rw [e3]⟩
  intro g acc rawDt inp jr envs hstate
  unfold Game.animateFrame
  rw [if_pos hstate]
  exact (drainLoop_counts (acc + min rawDt (1/10)) g inp jr envs).2

/-- Witness for C3 (amended): the drain spec applied at the concrete
accumulator value 0.05 and the clamp applied at a small raw delta. -/
theorem fixed_step_drain_witness :
    ((0:ℚ) ≤ 1/20 ∧
     (1/20 : ℚ) = ((drainSteps (1/20)).1 : ℚ) * fixedTimeStep + (drainSteps (1/20)).2 ∧
     0 ≤ (drainSteps (1/20)).2 ∧ (drainSteps (1/20)).2 < fixedTimeStep) ∧
    ((1/100 : ℚ) ≤ 1/10 ∧ min (1/100 : ℚ) (1/10) = 1/100) :=
  ⟨⟨by norm_num, (fixed_step_drain.2.2.1 (1/20) (by norm_num)).1,
    (fixed_step_drain.2.2.1 (1/20) (by norm_num)).2.1,
    (fixed_step_drain.2.2.1 (1/20) (by norm_num)).2.2⟩,
   ⟨by norm_num, (fixed_step_drain.1 (1/100)).2 (by norm_num)⟩⟩

/-- Counterexample for C3 as stated: at an accumulated delta of 0.05 s the
loop executes 3 fixed steps and leaves exactly 0 in the accumulator — not
approximately 0.0167 s (0.05 is an exact multiple of 1/60 s and the `>=`
loop condition consumes the final exact step; 3 steps of 1/60 s plus a
0.0167 s remainder would exceed 0.05 s). -/
theorem drain_005_zero_remainder_counterexample :
    (drainSteps (1/20)).1 = 3 ∧ (drainSteps (1/20)).2 = 0 ∧
    ¬((1/100 : ℚ) ≤ (drainSteps (1/20)).2) := by
  have e0 : drainSteps (0 : ℚ) = (0, 0) :=
    drainSteps_stop 0 (by norm_num [fixedTimeStep])
  have e1 : drainSteps (1/60 : ℚ) = (1, 0) := by
    rw [drainSteps_step _ (by norm_num [fixedTimeStep]),
      show (1/60 - fixedTimeStep : ℚ) = 0 by norm_num [fixedTimeStep], e0]
  have e2 : drainSteps (1/30 : ℚ) = (2, 0) := by
    rw [drainSteps_step _ (by norm_num [fixedTimeStep]),
      show (1/30 - fixedTimeStep : ℚ) = 1/60 by norm_num [fixedTimeStep], e1]
  have e3 : drainSteps (1/20 : ℚ) = (3, 0) := by
    rw [drainSteps_step _ (by norm_num [fixedTimeStep]),
      show (1/20 - fixedTimeStep : ℚ) = 1/30 by norm_num [fixedTimeStep], e2]
  rw [e3]
  norm_num

/-- C9: for every score ≥ 0, the implemented difficulty
`Math.min(score / 50, 3)` equals the spec's `clamp(score / 50, 0, 3)`,
lies in `[0, 3]`, is non-decreasing in the score, and equals 3 for every
score ≥ 150. -/
theorem difficulty_clamp_monotone_saturating :
    (∀ s : ℚ, 0 ≤ s →
      difficulty s = difficultySpec s ∧ 0 ≤ difficulty s ∧ difficulty s ≤ 3) ∧
    (∀ s t : ℚ, 0 ≤ s → s ≤ t → difficulty s ≤ difficulty t) ∧
    (∀ s : ℚ, 150 ≤ s → difficulty s = 3) := by
  refine ⟨fun s hs => ?_, fun s t hs hst => ?_, fun s hs => ?_⟩
  · have h50 : (0:ℚ) ≤ s / 50 := by positivity
    unfold difficulty difficultySpec clampQ
    refine ⟨?_, le_min h50 (by norm_num), min_le_right _ _⟩
    rw [max_eq_right (le_min (by norm_num) h50), min_comm]
  · unfold difficulty
    exact min_le_min (by linarith) le_rfl
  · unfold difficulty
    exact min_eq_right (by linarith)

/-- Witness for C9 at concrete scores 100, 40 ≤ 160, and 200. -/
theorem difficulty_clamp_monotone_saturating_witness :
    ((0:ℚ) ≤ 100 ∧ difficulty 100 = difficultySpec 100) ∧
    ((0:ℚ) ≤ 40 ∧ (40:ℚ) ≤ 160 ∧ difficulty 40 ≤ difficulty 160) ∧
    ((150:ℚ) ≤ 200 ∧ difficulty 200 = 3) :=
  ⟨⟨by norm_num, (difficulty_clamp_monotone_saturating.1 100 (by norm_num)).1⟩,
   ⟨by norm_num, by norm_num,
    difficulty_clamp_monotone_saturating.2.1 40 160 (by norm_num) (by norm_num)⟩,
   ⟨by norm_num, difficulty_clamp_monotone_saturating.2.2 200 (by norm_num)⟩⟩

/-- C10: after every `Player.update`, with any input and any `dt`, the
lateral position is clamped to `[-(trackWidth/2 - 0.5), trackWidth/2 - 0.5]
= [-4.5, 4.5]`, so the player can never leave the track. -/
theorem player_update_pos_clamped (p : Player) (dt : ℚ) (inp : InputActions) :
    -(9/2) ≤ (p.update dt inp).posX ∧ (p.update dt inp).posX ≤ 9/2 := by
  have h : (p.update dt inp).posX =
      clampQ (if inp.moveRight then
                (if inp.moveLeft then p.posX - Player.moveSpeed * dt else p.posX)
                  + Player.moveSpeed * dt
              else if inp.moveLeft then p.posX - Player.moveSpeed * dt else p.posX)
        (-(9/2)) (9/2) := by
    simp only [Player.update, Player.trackWidth]
    norm_num
  rw [h]
  unfold clampQ
  exact ⟨le_max_left _ _, max_le (by norm_num) (min_le_left _ _)⟩

end Fubis
